import Mathlib

/-!
# ChatApp (static/script.js): message-delivery reconciliation

A shallow embedding of the `ChatApp` class of `src/static/script.js`.

* The session fields (`currentReceiverId`, `currentReceiverName`, `userId`,
  `messageQueue`) are the fields of `State`; the children of the `#messages`
  element, the value of `#chat-input` and the events handed to the socket are
  carried in the same record, since the handlers read and write them.
* Values that JavaScript computes from the outside world (`Date.now()`,
  `Math.random()`, the locale clock) are read from an `Env` argument.
* `loadMessages` is asynchronous: its synchronous prefix is `loadMessagesStart`
  and the code that runs once the fetch has settled is `loadMessagesDone`.
* `replaceTempMessage` splices the id into the selector text
  `[data-temp-id="${tempId}"]`. `querySelectorTemp` reads that text as the
  selector engine does: an id with an unescaped quote makes the call throw, an
  id whose backslashes escape plain characters selects the unescaped value, and
  for the remaining ids the answer of the engine is an input (`Env.querySelector`).
  A match is the first child of `#messages` whose `data-temp-id` attribute
  equals the value; `.empty-state` finds the first placeholder node. The inner
  markup of a node is not searched.
-/

set_option autoImplicit false

namespace ChatApp

/-! ## JavaScript values -/

/-- The values an id can take in the script: `null` (also standing for
`undefined`), `NaN`, or an integral number. -/
inductive JSVal where
  | null
  | nan
  | num (n : Int)
  deriving DecidableEq, Repr

/-- JavaScript truthiness of an id value: `null`, `NaN` and `0` are falsy. -/
def JSVal.truthy : JSVal → Bool
  | .num n => n != 0
  | _ => false

/-- Strict equality `===` on id values; `NaN` is not equal to itself. -/
def JSVal.strictEq : JSVal → JSVal → Bool
  | .null, .null => true
  | .num a, .num b => a == b
  | _, _ => false

/-- Truthiness of an optional string property (`undefined` and `""` are falsy). -/
def strTruthy : Option String → Bool
  | some s => s != ""
  | none => false

/-- White space and line terminators as `parseInt` and `String.prototype.trim`
see them. -/
def isJSWhiteSpace (c : Char) : Bool :=
  let n := c.toNat
  n == 0x09 || n == 0x0A || n == 0x0B || n == 0x0C || n == 0x0D || n == 0x20 ||
  n == 0xA0 || n == 0x1680 || (decide (0x2000 ≤ n) && decide (n ≤ 0x200A)) ||
  n == 0x2028 || n == 0x2029 || n == 0x202F || n == 0x205F || n == 0x3000 ||
  n == 0xFEFF

/-- The characters of `s.trim()`. -/
def trimChars (cs : List Char) : List Char :=
  ((cs.dropWhile isJSWhiteSpace).reverse.dropWhile isJSWhiteSpace).reverse

/-- The method `String.prototype.trim`. -/
def jsTrim (s : String) : String :=
  String.mk (trimChars s.data)

/-- The value of a run of decimal digits. -/
def digitsValue (ds : List Char) : Nat :=
  ds.foldl (fun acc c => 10 * acc + (c.toNat - 48)) 0

/-- The call `parseInt(s, 10)`: leading white space is skipped, one sign is
read, then the longest run of decimal digits; no digit gives `NaN`. -/
def parseInt (s : String) : JSVal :=
  let cs := s.data.dropWhile isJSWhiteSpace
  let neg := cs.head? == some '-'
  let body := if cs.head? == some '-' || cs.head? == some '+' then cs.tail else cs
  let ds := body.takeWhile Char.isDigit
  if ds.isEmpty then JSVal.nan
  else JSVal.num (if neg then - (digitsValue ds : Int) else (digitsValue ds : Int))

/-- The call `parseInt(el.dataset.x, 10)` on a data attribute that may be
missing (`undefined` is converted to the string "undefined"). -/
def parseIntAttr (attr : Option String) : JSVal :=
  parseInt (attr.getD "undefined")

/-! ## Data model -/

/-- The CSS class a message is given. -/
inductive MsgType where
  | sent
  | received
  deriving DecidableEq, Repr

/-- A message object: an inbound `receive_message` event, a history record, or
the object `sendMessage` builds for its pending entry. -/
structure MessageData where
  sender_id : JSVal
  receiver_id : JSVal
  message : String
  timestamp : Option String
  tempId : Option String
  deriving DecidableEq, Repr

/-- The payload of a `send_message` event. -/
structure SendEvent where
  message : String
  receiver_id : JSVal
  sender_id : JSVal
  tempId : String
  deriving DecidableEq, Repr

/-- A child of the `#messages` element. -/
inductive Node where
  /-- A `div.message` built by `displayMessage`: its type class, its
  `data-temp-id` attribute, its `style.opacity` and its inner markup. -/
  | message (type : MsgType) (tempId : Option String) (opacity : String)
      (innerHTML : String)
  /-- A `div.empty-state` placeholder, given by the markup it was parsed from. -/
  | emptyState (outerHTML : String)
  /-- A text node. -/
  | text (data : String)
  deriving DecidableEq, Repr

/-- The `data-temp-id` attribute of a node, when it has one. -/
def Node.tempId? : Node → Option String
  | .message _ t _ _ => t
  | _ => none

/-- Whether the node is a message entry. -/
def Node.isMessage : Node → Bool
  | .message _ _ _ _ => true
  | _ => false

/-- Whether the node is a message entry without a `data-temp-id` attribute. -/
def Node.isConfirmed : Node → Bool
  | .message _ none _ _ => true
  | _ => false

/-- What `document.querySelector` answers: it throws a `SyntaxError`, it
returns `null` (or an element that is not a child of `#messages`), or it
returns the child of `#messages` at a position. -/
inductive QueryResult where
  | syntaxError
  | null
  | child (i : Nat)
  deriving DecidableEq, Repr

/-- The values read from the environment during one handler run. -/
structure Env where
  /-- The value of `Date.now()`. -/
  dateNow : Nat
  /-- The base-36 digits of `Math.random()` after the point, as
  `Math.random().toString(36)` writes them. -/
  random : List (Fin 36)
  /-- The value of `new Date().toLocaleTimeString('ru-RU', ...)`. -/
  localeTime : String
  /-- The answer of the browser's selector engine to `[data-temp-id="..."]`
  for an id, spliced between the quotes, that the model does not read itself
  (see `querySelectorTemp`), on the given children of `#messages`. -/
  querySelector : String → List Node → QueryResult

/-- The friend entry that was clicked: its `data-id` and `data-username`. -/
structure FriendEl where
  id : Option String
  username : Option String
  deriving DecidableEq, Repr

/-- The session: the fields of `ChatApp` and the page state its handlers use. -/
structure State where
  currentReceiverId : JSVal
  currentReceiverName : Option String
  userId : JSVal
  /-- The `Set` of provisional ids, in insertion order. -/
  messageQueue : List String
  /-- The children of `#messages`. -/
  messages : List Node
  /-- The value of `#chat-input`. -/
  chatInput : String
  /-- The `send_message` events handed to the socket, oldest first. -/
  emitted : List SendEvent
  deriving DecidableEq, Repr

/-- The method `Set.prototype.add`. -/
def setAdd (q : List String) (x : String) : List String :=
  if x ∈ q then q else q ++ [x]

/-- The method `Set.prototype.delete`. -/
def setDelete (q : List String) (x : String) : List String :=
  q.filter (fun y => y != x)

/-- The session `new ChatApp()` builds on a page whose body carries
`data-user-id = userIdAttr` and whose `#messages` element has the given
children. -/
def new (userIdAttr : Option String) (page : List Node) : State :=
  { currentReceiverId := JSVal.null
    currentReceiverName := none
    userId := if (parseIntAttr userIdAttr).truthy then parseIntAttr userIdAttr else JSVal.null
    messageQueue := []
    messages := page
    chatInput := ""
    emitted := [] }

/-! ## Rendering -/

/-- The serialisation of a text node (`div.textContent = text; div.innerHTML`). -/
def escapeChars : List Char → List Char
  | [] => []
  | c :: cs =>
    (if c = '&' then "&amp;".data
     else if c = '<' then "&lt;".data
     else if c = '>' then "&gt;".data
     else if c = Char.ofNat 0xA0 then "&nbsp;".data
     else [c]) ++ escapeChars cs

/-- The method `escapeHtml`. -/
def escapeHtml (text : String) : String :=
  String.mk (escapeChars text.data)

/-- The template literal assigned to `messageDiv.innerHTML`. -/
def messageMarkup (escaped time : String) (isTemporary : Bool) : String :=
  "\n            <div class=\"message-bubble\">\n                <div class=\"message-text\">"
    ++ escaped ++
  "</div>\n                <div class=\"message-time\">"
    ++ time ++ " " ++ (if isTemporary then "⏳" else "") ++
  "</div>\n            </div>\n        "

/-- The `div.message` that `displayMessage` builds. -/
def messageDiv (env : Env) (data : MessageData) (type : MsgType) (isTemporary : Bool) : Node :=
  let time := if strTruthy data.timestamp then data.timestamp.getD "" else env.localeTime
  Node.message type
    (if isTemporary then some (data.tempId.getD "undefined") else none)
    (if isTemporary then "0.7" else "")
    (messageMarkup (escapeHtml data.message) time isTemporary)

/-- Removal of the first `.empty-state` node, if there is one. -/
def removeEmptyState : List Node → List Node
  | [] => []
  | Node.emptyState _ :: rest => rest
  | n :: rest => n :: removeEmptyState rest

/-- The call `tempElement.remove()` on the first node whose `data-temp-id`
attribute equals `value`, if there is one. -/
def removeCarrier (value : String) : List Node → List Node
  | [] => []
  | n :: rest => if n.tempId? = some value then rest else n :: removeCarrier value rest

/-- The method `displayMessage`. -/
def displayMessage (env : Env) (s : State) (data : MessageData) (type : MsgType)
    (isTemporary : Bool) : State :=
  { s with messages := removeEmptyState s.messages ++ [messageDiv env data type isTemporary] }

/-! ## The selector of `replaceTempMessage`

The id is spliced into the selector text `[data-temp-id="${tempId}"]`, so the
selector engine reads it as the inside of a CSS string, not as a value. -/

/-- The double quote. -/
def dquote : Char := Char.ofNat 34

/-- The backslash. -/
def backslash : Char := Char.ofNat 92

/-- A hexadecimal digit, which starts a numeric escape after a backslash. -/
def isHexDigit (c : Char) : Bool :=
  c.isDigit || (decide ('a' ≤ c) && decide (c ≤ 'f')) || (decide ('A' ≤ c) && decide (c ≤ 'F'))

/-- The characters a CSS string cannot hold as they are: line feed, carriage
return and form feed end it in error, and `NUL` is replaced. -/
def isCssBreak (c : Char) : Bool :=
  c.toNat == 0x0A || c.toNat == 0x0D || c.toNat == 0x0C || c.toNat == 0

/-- The characters with a meaning of their own inside a double-quoted CSS
string. -/
def isCssSpecial (c : Char) : Bool :=
  c == dquote || c == backslash || isCssBreak c

/-- An id without any character that is special inside a CSS string. -/
def cssPlain (tempId : String) : Bool :=
  tempId.data.all (fun c => !isCssSpecial c)

/-- The value of a CSS string whose inside is the given text, when the text
has no unescaped quote, no line break or `NUL`, and each backslash is followed
by a character that stands for itself (not a hexadecimal digit, not a line
break, not the end of the text); `escaped` tells that the previous character
was such a backslash. -/
def cssStringValue (escaped : Bool) : List Char → Option (List Char)
  | [] => if escaped then none else some []
  | c :: rest =>
    if escaped then
      if isHexDigit c || isCssBreak c then none
      else (cssStringValue false rest).map (fun v => c :: v)
    else if c = backslash then cssStringValue true rest
    else if isCssSpecial c then none
    else (cssStringValue false rest).map (fun v => c :: v)

/-- The attribute value that `[data-temp-id="${tempId}"]` selects, when the
id reads as the inside of a CSS string by `cssStringValue`. -/
def selectorValue (tempId : String) : Option String :=
  (cssStringValue false tempId.data).map String.mk

/-- Ids for which `[data-temp-id="${tempId}"]` is not a selector: a quote
closes the string early and, without a backslash, a `]` or a comment opener
after it, the closing quote of the template is left inside the brackets. -/
def selectorInvalid (tempId : String) : Bool :=
  tempId.data.contains dquote && !tempId.data.contains backslash &&
    !tempId.data.contains ']' &&
    !tempId.data.contains '/'

/-- The call `document.querySelector` of `replaceTempMessage`, followed by
`if (tempElement) tempElement.remove()`: `none` when the call throws, else the
children of `#messages` afterwards. For other ids than those read by
`selectorInvalid` and `selectorValue` the selector engine of the environment
answers. -/
def querySelectorTemp (env : Env) (tempId : String) (view : List Node) : Option (List Node) :=
  if selectorInvalid tempId then none
  else match selectorValue tempId with
    | some value => some (removeCarrier value view)
    | none =>
      match env.querySelector tempId view with
      | QueryResult.syntaxError => none
      | QueryResult.null => some view
      | QueryResult.child i => some (view.eraseIdx i)

/-- The method `replaceTempMessage`; `none` when `querySelector` throws. -/
def replaceTempMessage (env : Env) (s : State) (tempId : String) (realMessage : MessageData) :
    Option State :=
  match querySelectorTemp env tempId s.messages with
  | none => none
  | some view => some (displayMessage env { s with messages := view } realMessage MsgType.sent false)

/-! ## Handlers -/

/-- The character of a base-36 digit. -/
def base36Char (d : Fin 36) : Char :=
  if d.val < 10 then Char.ofNat (48 + d.val) else Char.ofNat (87 + d.val)

/-- The value of `Math.random().toString(36).substr(2, 9)`: at most nine
digits after the point. -/
def randomToken (env : Env) : String :=
  String.mk ((env.random.take 9).map base36Char)

/-- The id `sendMessage` generates. -/
def messageId (env : Env) : String :=
  toString env.dateNow ++ "_" ++ randomToken env

/-- Whether `sendMessage` goes past its guard. -/
def accepts (s : State) : Bool :=
  jsTrim s.chatInput != "" && s.currentReceiverId.truthy

/-- The object `sendMessage` passes to `displayMessage`. -/
def pendingData (env : Env) (s : State) : MessageData :=
  { sender_id := JSVal.null
    receiver_id := JSVal.null
    message := jsTrim s.chatInput
    timestamp := some env.localeTime
    tempId := some (messageId env) }

/-- The payload `sendMessage` emits. -/
def sendEvent (env : Env) (s : State) : SendEvent :=
  { message := jsTrim s.chatInput
    receiver_id := s.currentReceiverId
    sender_id := s.userId
    tempId := messageId env }

/-- First effect of an accepted `sendMessage`: `this.messageQueue.add(messageId)`. -/
def sendQueued (env : Env) (s : State) : State :=
  { s with messageQueue := setAdd s.messageQueue (messageId env) }

/-- Second effect: the pending entry is displayed. -/
def sendDisplayed (env : Env) (s : State) : State :=
  displayMessage env (sendQueued env s) (pendingData env s) MsgType.sent true

/-- Third effect: `this.socket.emit('send_message', ...)`. -/
def sendEmitted (env : Env) (s : State) : State :=
  { sendDisplayed env s with emitted := (sendDisplayed env s).emitted ++ [sendEvent env s] }

/-- The method `sendMessage`. -/
def sendMessage (env : Env) (s : State) : State :=
  if jsTrim s.chatInput = "" ∨ s.currentReceiverId.truthy = false then s
  else { sendEmitted env s with chatInput := "" }

/-- The method `handleReceivedMessage`; when `replaceTempMessage` throws, the
handler ends there, before anything was changed. -/
def handleReceivedMessage (env : Env) (s : State) (data : MessageData) : State :=
  if s.currentReceiverId.truthy = false then s
  else if s.currentReceiverId.strictEq data.sender_id = false ∧
      s.currentReceiverId.strictEq data.receiver_id = false then s
  else
    let type := if data.sender_id.strictEq s.userId then MsgType.sent else MsgType.received
    if type = MsgType.sent ∧ strTruthy data.tempId = true then
      let tempId := data.tempId.getD ""
      match replaceTempMessage env s tempId data with
      | none => s
      | some s1 => { s1 with messageQueue := setDelete s1.messageQueue tempId }
    else displayMessage env s data type false

/-- The markup `loadMessages` writes before it starts the request. -/
def loadingMarkup : String :=
  "<div class=\"empty-state\"><div>💬</div><p>Загрузка сообщений...</p></div>"

/-- The markup `loadMessages` writes for a response that carries `error`. -/
def historyErrorMarkup (error : String) : String :=
  "<div class=\"empty-state\"><div>⚠️</div><p>" ++ error ++ "</p></div>"

/-- The `div.empty-state` of the markup written for an empty history. -/
def noMessagesMarkup : String :=
  "<div class=\"empty-state\">\n                        <div>💬</div>\n                        <p>Нет сообщений</p>\n                        <small>Начните общение первым!</small>\n                    </div>"

/-- The `div.empty-state` of the markup written when the load fails. -/
def loadFailedMarkup : String :=
  "<div class=\"empty-state\">\n                    <div>⚠️</div>\n                    <p>Ошибка загрузки сообщений</p>\n                </div>"

/-- The children of `#messages` after the empty-history template is assigned. -/
def noMessagesView : List Node :=
  [Node.text "\n                    ", Node.emptyState noMessagesMarkup,
   Node.text "\n                "]

/-- The children of `#messages` after the `catch` template is assigned. -/
def loadFailedView : List Node :=
  [Node.text "\n                ", Node.emptyState loadFailedMarkup,
   Node.text "\n            "]

/-- What the request of `loadMessages` settles to. -/
inductive HistoryResponse where
  /-- The fetch was rejected, the status was not ok, or the body was not JSON. -/
  | failure
  /-- A JSON object `{ error }`. -/
  | errorPayload (error : String)
  /-- A JSON array of message records. -/
  | records (data : List MessageData)
  deriving DecidableEq, Repr

/-- The synchronous prefix of `loadMessages`. -/
def loadMessagesStart (s : State) : State :=
  { s with messages := [Node.emptyState loadingMarkup] }

/-- The loop `data.forEach(msg => ...)` of `loadMessages`. -/
def displayAll (env : Env) (s : State) : List MessageData → State
  | [] => s
  | msg :: rest =>
    displayAll env
      (displayMessage env s msg
        (if msg.sender_id.strictEq s.userId then MsgType.sent else MsgType.received) false)
      rest

/-- The rest of `loadMessages`, run when the request has settled. An object
whose `error` is falsy has no `length` and no `forEach`, so the `catch` block
runs after the view was emptied. -/
def loadMessagesDone (env : Env) (s : State) : HistoryResponse → State
  | .failure => { s with messages := loadFailedView }
  | .errorPayload error =>
    if error != "" then { s with messages := [Node.emptyState (historyErrorMarkup error)] }
    else { s with messages := loadFailedView }
  | .records [] => { s with messages := noMessagesView }
  | .records (m :: ms) => displayAll env { s with messages := [] } (m :: ms)

/-- Whether `updateChatHeader` throws: `currentReceiverName[0].toUpperCase()`
needs a non-empty name. -/
def headerThrows (name : Option String) : Bool :=
  match name with
  | none => true
  | some n => n == ""

/-- The method `selectFriend`; when `updateChatHeader` throws, the history load
is not started. -/
def selectFriend (s : State) (friendEl : FriendEl) : State :=
  let s1 := { s with currentReceiverId := parseIntAttr friendEl.id
                     currentReceiverName := friendEl.username }
  if headerThrows s1.currentReceiverName then s1 else loadMessagesStart s1

/-- Whether `selectFriend` starts a history load. -/
def startsLoad (friendEl : FriendEl) : Bool :=
  !headerThrows friendEl.username

/-- What the request of `searchFriend` settles to. -/
inductive SearchResponse where
  /-- The fetch was rejected or the body was not JSON. -/
  | failure
  /-- A JSON object with optional `error` and `success` strings. -/
  | json (error success : Option String)
  deriving DecidableEq, Repr

/-- The markup `searchFriend` assigns to `#search-result`. -/
def searchFriend (searchInput : String) (resp : SearchResponse) : String :=
  if jsTrim searchInput = "" then "<p class=\"error\">Введите email или имя пользователя</p>"
  else match resp with
    | .failure => "<p class=\"error\">Ошибка при поиске</p>"
    | .json error success =>
      if strTruthy error then "<p class=\"error\">" ++ error.getD "" ++ "</p>"
      else "<p class=\"success\">" ++ success.getD "undefined" ++ "</p>"

/-! ## Notions used to state the properties -/

/-- Decoding of HTML text, scanning left to right: each of the four character
references that the serialisation of a text node can produce is replaced by
its character; `skip` counts the characters of a reference still to pass. -/
def decodeFrom (skip : Nat) : List Char → List Char
  | [] => []
  | c :: rest =>
    match skip with
    | k + 1 => decodeFrom k rest
    | 0 =>
      if c = '&' then
        if "amp;".data.isPrefixOf rest then '&' :: decodeFrom 4 rest
        else if "lt;".data.isPrefixOf rest then '<' :: decodeFrom 3 rest
        else if "gt;".data.isPrefixOf rest then '>' :: decodeFrom 3 rest
        else if "nbsp;".data.isPrefixOf rest then Char.ofNat 0xA0 :: decodeFrom 5 rest
        else c :: decodeFrom 0 rest
      else c :: decodeFrom 0 rest

/-- Decoding of the character references of HTML text. -/
def decodeChars (cs : List Char) : List Char :=
  decodeFrom 0 cs

/-- The text a piece of markup without tags shows. -/
def decodeHtml (markup : String) : String :=
  String.mk (decodeChars markup.data)

/-- The message entries of a view, oldest first. -/
def entries (view : List Node) : List Node :=
  view.filter Node.isMessage

/-- The confirmed message entries of a view, oldest first. -/
def confirmedEntries (view : List Node) : List Node :=
  view.filter Node.isConfirmed

/-- The provisional ids carried by the nodes of a view, in document order. -/
def tempIds (view : List Node) : List String :=
  view.filterMap Node.tempId?

/-- The step from `s` to `t` rendered `msg`: the confirmed entries of `t` are
those of `s` followed by exactly one entry built from `msg`. -/
def renders (env : Env) (s t : State) (msg : MessageData) : Bool :=
  decide (confirmedEntries t.messages =
    confirmedEntries s.messages ++ [messageDiv env msg MsgType.sent false]) ||
  decide (confirmedEntries t.messages =
    confirmedEntries s.messages ++ [messageDiv env msg MsgType.received false])

/-- The active target's `friendId` equals the sender or the receiver of `msg`. -/
def targetMatches (s : State) (msg : MessageData) : Bool :=
  s.currentReceiverId.strictEq msg.sender_id || s.currentReceiverId.strictEq msg.receiver_id

/-- The event gets past both guards of `handleReceivedMessage`. -/
def passesRouting (s : State) (msg : MessageData) : Bool :=
  s.currentReceiverId.truthy && targetMatches s msg

/-- The event reaches `replaceTempMessage`: it is from the local user and
carries a provisional id. -/
def reachesSelector (s : State) (msg : MessageData) : Bool :=
  msg.sender_id.strictEq s.userId && strTruthy msg.tempId

/-- The event does not reach `replaceTempMessage`, or its provisional id has no
character that is special in a CSS string. -/
def selectorSafe (s : State) (msg : MessageData) : Bool :=
  !reachesSelector s msg || cssPlain (msg.tempId.getD "")

/-- Steps 3 and 4 of the classification algorithm as the specification words
them: a self-echo (sender is the local user, a provisional id is present, a
pending entry with that id exists) removes the pending entry and its
provisional rendering and renders the message as a confirmed sent entry;
anything else is rendered as a new entry, sent or received by its sender. -/
def specClassify (env : Env) (s : State) (msg : MessageData) : State :=
  match msg.tempId with
  | some x =>
    if msg.sender_id.strictEq s.userId = true ∧ x ∈ s.messageQueue then
      displayMessage env
        { s with messageQueue := s.messageQueue.filter (fun y => y != x)
                 messages := s.messages.filter (fun n => decide (n.tempId? ≠ some x)) }
        msg MsgType.sent false
    else
      displayMessage env s msg
        (if msg.sender_id.strictEq s.userId then MsgType.sent else MsgType.received) false
  | none =>
    displayMessage env s msg
      (if msg.sender_id.strictEq s.userId then MsgType.sent else MsgType.received) false

/-- Selecting a friend and letting the history request it starts settle;
`env` is read when the request settles. -/
def selectAndLoad (env : Env) (s : State) (friendEl : FriendEl) (resp : HistoryResponse) :
    State :=
  if startsLoad friendEl then loadMessagesDone env (selectFriend s friendEl) resp
  else selectFriend s friendEl

/-- Whether every record of a history response carries a timestamp. -/
def stamped : HistoryResponse → Bool
  | .records data => data.all (fun m => strTruthy m.timestamp)
  | _ => true

/-! ## Sessions -/

/-- What can happen in a session: a friend is clicked, a history request
settles, the user edits the input, the user sends, an event arrives. -/
inductive Action where
  | selectFriend (friendEl : FriendEl)
  | loadMessagesDone (env : Env) (resp : HistoryResponse)
  | input (text : String)
  | sendMessage (env : Env)
  | handleReceivedMessage (env : Env) (data : MessageData)

/-- The state after an action. -/
def step (s : State) : Action → State
  | .selectFriend friendEl => selectFriend s friendEl
  | .loadMessagesDone env resp => loadMessagesDone env s resp
  | .input text => { s with chatInput := text }
  | .sendMessage env => sendMessage env s
  | .handleReceivedMessage env data => handleReceivedMessage env s data

/-- The provisional ids an action generates. -/
def generated (s : State) : Action → List String
  | .sendMessage env => if accepts s then [messageId env] else []
  | _ => []

/-- A run of the session from state `s`, where `issued` lists the provisional
ids generated so far: every id a `sendMessage` generates was never generated
before. -/
inductive Run (s : State) (issued : List String) : State → List String → Prop where
  | refl : Run s issued s issued
  | tail {t : State} {issuedT : List String} (a : Action) :
      Run s issued t issuedT → (∀ x ∈ generated t a, x ∉ issuedT) →
      Run s issued (step t a) (generated t a ++ issuedT)

/-- The states a session can reach, with the ids generated on the way: runs
start from `new ChatApp()` on a page none of whose nodes carries a
`data-temp-id`. -/
def Reachable (s : State) (issued : List String) : Prop :=
  ∃ userIdAttr page, (∀ n ∈ page, Node.tempId? n = none) ∧
    Run (new userIdAttr page) [] s issued

/-- The nodes of a view that carry the provisional id `x`. -/
def carrying (x : String) (view : List Node) : List Node :=
  view.filter (fun n => decide (n.tempId? = some x))

/-- What holds of every reachable session: no two nodes carry the same
provisional id, every id carried by a node is pending, every pending id was
generated by `sendMessage`, no generated id is empty or holds a character that
is special in a CSS string, and the local user id is not `NaN`. -/
def Inv (s : State) (issued : List String) : Prop :=
  (tempIds s.messages).Nodup ∧
  (∀ x ∈ tempIds s.messages, x ∈ s.messageQueue) ∧
  (∀ x ∈ s.messageQueue, x ∈ issued) ∧
  (∀ x ∈ issued, x ≠ "" ∧ cssPlain x = true) ∧
  s.userId ≠ JSVal.nan

/-- The echo of the message `sendMessage` sends from `s` under `env`: the
event the server broadcasts back, with the sender, receiver, body and
provisional id of the send event and the server's timestamp. -/
def echoOf (env : Env) (s : State) (timestamp : Option String) : MessageData :=
  { sender_id := (sendEvent env s).sender_id
    receiver_id := (sendEvent env s).receiver_id
    message := (sendEvent env s).message
    timestamp := timestamp
    tempId := some (sendEvent env s).tempId }

/-! ## A sample session -/

/-- A clock reading, a random value (`10/36`, written `0.a`) and a selector
engine that finds nothing for the ids it is asked about. -/
def sampleEnv : Env :=
  { dateNow := 5, random := [10], localeTime := "10:00",
    querySelector := fun _ _ => QueryResult.null }

/-- The environment one minute later. -/
def laterEnv : Env :=
  { dateNow := 60005, random := [11], localeTime := "10:01",
    querySelector := fun _ _ => QueryResult.null }

/-- The friend entry of user 7. -/
def alex : FriendEl :=
  { id := some "7", username := some "Alex" }

/-- The friend entry of user 9. -/
def bob : FriendEl :=
  { id := some "9", username := some "Bob" }

/-- User 1 has opened the conversation with user 7 and typed a message. -/
def sampleTyped : State :=
  step (step (new (some "1") []) (Action.selectFriend alex)) (Action.input " hi ")

/-- The message has been sent and is pending. -/
def samplePending : State :=
  step sampleTyped (Action.sendMessage sampleEnv)

/-- The echo of the pending message as the server broadcasts it. -/
def sampleEcho : MessageData :=
  { sender_id := JSVal.num 1, receiver_id := JSVal.num 7, message := "hi",
    timestamp := some "10:00", tempId := some "5_a" }

/-- The echo has arrived while the conversation with user 7 is open. -/
def sampleConfirmed : State :=
  step samplePending (Action.handleReceivedMessage laterEnv sampleEcho)

/-- The user has switched to user 9 before the echo arrives. -/
def sampleSwitched : State :=
  step samplePending (Action.selectFriend bob)

/-- The user has typed a second message while the first is pending. -/
def sampleRetyped : State :=
  step samplePending (Action.input "two")

/-- The second message has been sent at the same clock reading and with the
same random value as the first, so under the same provisional id. -/
def sampleCollided : State :=
  step sampleRetyped (Action.sendMessage sampleEnv)

/-- The echo of the second message. -/
def sampleEchoTwo : MessageData :=
  { sender_id := JSVal.num 1, receiver_id := JSVal.num 7, message := "two",
    timestamp := some "10:00", tempId := some "5_a" }

/-- An event of the local user whose provisional id escapes the underscore. -/
def sampleEscaped : MessageData :=
  { sender_id := JSVal.num 1, receiver_id := JSVal.num 7, message := "x",
    timestamp := some "10:01", tempId := some "5\\_a" }

/-- An event of the local user whose provisional id holds a quote. -/
def sampleQuoted : MessageData :=
  { sender_id := JSVal.num 1, receiver_id := JSVal.num 7, message := "x",
    timestamp := some "10:01", tempId := some "a\"b" }

/-! ## Escaping -/

theorem decodeFrom_skip (xs ys : List Char) :
    decodeFrom xs.length (xs ++ ys) = decodeFrom 0 ys := by
  induction xs with
  | nil => rfl
  | cons x xs ih =>
    cases ys with
    | nil => simpa [decodeFrom] using ih
    | cons y ys => simpa [decodeFrom] using ih

theorem decodeFrom_cons_of_ne (c : Char) (rest : List Char) (h : c ≠ '&') :
    decodeFrom 0 (c :: rest) = c :: decodeFrom 0 rest := by
  simp [decodeFrom, h]

theorem decodeFrom_amp (rest : List Char) :
    decodeFrom 0 ('&' :: 'a' :: 'm' :: 'p' :: ';' :: rest) = '&' :: decodeFrom 0 rest := by
  have h := decodeFrom_skip ['a', 'm', 'p', ';'] rest
  simp [decodeFrom] at h ⊢

theorem decodeFrom_lt (rest : List Char) :
    decodeFrom 0 ('&' :: 'l' :: 't' :: ';' :: rest) = '<' :: decodeFrom 0 rest := by
  simp [decodeFrom]

theorem decodeFrom_gt (rest : List Char) :
    decodeFrom 0 ('&' :: 'g' :: 't' :: ';' :: rest) = '>' :: decodeFrom 0 rest := by
  simp [decodeFrom]

theorem decodeFrom_nbsp (rest : List Char) :
    decodeFrom 0 ('&' :: 'n' :: 'b' :: 's' :: 'p' :: ';' :: rest)
      = Char.ofNat 0xA0 :: decodeFrom 0 rest := by
  simp [decodeFrom]

theorem decodeChars_escapeChars (cs : List Char) : decodeChars (escapeChars cs) = cs := by
  unfold decodeChars
  induction cs with
  | nil => rfl
  | cons c cs ih =>
    rw [escapeChars]
    by_cases h1 : c = '&'
    · subst h1; rw [if_pos rfl]
      show decodeFrom 0 ('&' :: 'a' :: 'm' :: 'p' :: ';' :: escapeChars cs) = _
      rw [decodeFrom_amp, ih]
    · rw [if_neg h1]
      by_cases h2 : c = '<'
      · subst h2; rw [if_pos rfl]
        show decodeFrom 0 ('&' :: 'l' :: 't' :: ';' :: escapeChars cs) = _
        rw [decodeFrom_lt, ih]
      · rw [if_neg h2]
        by_cases h3 : c = '>'
        · subst h3; rw [if_pos rfl]
          show decodeFrom 0 ('&' :: 'g' :: 't' :: ';' :: escapeChars cs) = _
          rw [decodeFrom_gt, ih]
        · rw [if_neg h3]
          by_cases h4 : c = Char.ofNat 0xA0
          · subst h4; rw [if_pos rfl]
            show decodeFrom 0 ('&' :: 'n' :: 'b' :: 's' :: 'p' :: ';' :: escapeChars cs) = _
            rw [decodeFrom_nbsp, ih]
          · rw [if_neg h4]
            show decodeFrom 0 (c :: escapeChars cs) = _
            rw [decodeFrom_cons_of_ne c _ h1, ih]

theorem escapeChars_no_angle (cs : List Char) :
    ∀ c ∈ escapeChars cs, c ≠ '<' ∧ c ≠ '>' := by
  induction cs with
  | nil => intro c h; simp [escapeChars] at h
  | cons d ds ih =>
    intro c hc
    rw [escapeChars, List.mem_append] at hc
    rcases hc with hc | hc
    · split_ifs at hc with h1 h2 h3 h4
      · have : c ∈ ['&', 'a', 'm', 'p', ';'] := hc
        simp at this; rcases this with h | h | h | h | h <;> subst h <;> decide
      · have : c ∈ ['&', 'l', 't', ';'] := hc
        simp at this; rcases this with h | h | h | h <;> subst h <;> decide
      · have : c ∈ ['&', 'g', 't', ';'] := hc
        simp at this; rcases this with h | h | h | h <;> subst h <;> decide
      · have : c ∈ ['&', 'n', 'b', 's', 'p', ';'] := hc
        simp at this; rcases this with h | h | h | h | h | h <;> subst h <;> decide
      · simp at hc; subst hc; exact ⟨h2, h3⟩
    · exact ih c hc

theorem split_amp_cons (x : Char) (pre post rest : List Char) (hx : x ≠ '&')
    (h : pre ++ '&' :: post = x :: rest) :
    ∃ q, pre = x :: q ∧ q ++ '&' :: post = rest := by
  cases pre with
  | nil => simp at h; exact absurd h.1.symm hx
  | cons p q => simp at h; exact ⟨q, by rw [h.1], h.2⟩

theorem escapeChars_amp (cs : List Char) :
    ∀ pre post, escapeChars cs = pre ++ '&' :: post →
      "amp;".data <+: post ∨ "lt;".data <+: post ∨ "gt;".data <+: post ∨
        "nbsp;".data <+: post := by
  induction cs with
  | nil => intro pre post h; simp [escapeChars] at h
  | cons c cs ih =>
    intro pre post h
    rw [escapeChars] at h
    have h := h.symm
    split_ifs at h with h1 h2 h3 h4
    · cases pre with
      | nil =>
        left
        have h : '&' :: post = '&' :: 'a' :: 'm' :: 'p' :: ';' :: escapeChars cs := h
        simp at h; exact ⟨escapeChars cs, by rw [h]; rfl⟩
      | cons p q =>
        have h : p :: (q ++ '&' :: post) = '&' :: 'a' :: 'm' :: 'p' :: ';' :: escapeChars cs := h
        simp at h
        obtain ⟨q1, _, e1⟩ := split_amp_cons _ _ _ _ (by decide) h.2
        obtain ⟨q2, _, e2⟩ := split_amp_cons _ _ _ _ (by decide) e1
        obtain ⟨q3, _, e3⟩ := split_amp_cons _ _ _ _ (by decide) e2
        obtain ⟨q4, _, e4⟩ := split_amp_cons _ _ _ _ (by decide) e3
        exact ih _ _ e4.symm
    · cases pre with
      | nil =>
        right; left
        have h : '&' :: post = '&' :: 'l' :: 't' :: ';' :: escapeChars cs := h
        simp at h; exact ⟨escapeChars cs, by rw [h]; rfl⟩
      | cons p q =>
        have h : p :: (q ++ '&' :: post) = '&' :: 'l' :: 't' :: ';' :: escapeChars cs := h
        simp at h
        obtain ⟨q1, _, e1⟩ := split_amp_cons _ _ _ _ (by decide) h.2
        obtain ⟨q2, _, e2⟩ := split_amp_cons _ _ _ _ (by decide) e1
        obtain ⟨q3, _, e3⟩ := split_amp_cons _ _ _ _ (by decide) e2
        exact ih _ _ e3.symm
    · cases pre with
      | nil =>
        right; right; left
        have h : '&' :: post = '&' :: 'g' :: 't' :: ';' :: escapeChars cs := h
        simp at h; exact ⟨escapeChars cs, by rw [h]; rfl⟩
      | cons p q =>
        have h : p :: (q ++ '&' :: post) = '&' :: 'g' :: 't' :: ';' :: escapeChars cs := h
        simp at h
        obtain ⟨q1, _, e1⟩ := split_amp_cons _ _ _ _ (by decide) h.2
        obtain ⟨q2, _, e2⟩ := split_amp_cons _ _ _ _ (by decide) e1
        obtain ⟨q3, _, e3⟩ := split_amp_cons _ _ _ _ (by decide) e2
        exact ih _ _ e3.symm
    · cases pre with
      | nil =>
        right; right; right
        have h : '&' :: post = '&' :: 'n' :: 'b' :: 's' :: 'p' :: ';' :: escapeChars cs := h
        simp at h; exact ⟨escapeChars cs, by rw [h]; rfl⟩
      | cons p q =>
        have h : p :: (q ++ '&' :: post)
            = '&' :: 'n' :: 'b' :: 's' :: 'p' :: ';' :: escapeChars cs := h
        simp at h
        obtain ⟨q1, _, e1⟩ := split_amp_cons _ _ _ _ (by decide) h.2
        obtain ⟨q2, _, e2⟩ := split_amp_cons _ _ _ _ (by decide) e1
        obtain ⟨q3, _, e3⟩ := split_amp_cons _ _ _ _ (by decide) e2
        obtain ⟨q4, _, e4⟩ := split_amp_cons _ _ _ _ (by decide) e3
        obtain ⟨q5, _, e5⟩ := split_amp_cons _ _ _ _ (by decide) e4
        exact ih _ _ e5.symm
    · have h : pre ++ '&' :: post = c :: escapeChars cs := h
      obtain ⟨q, _, e⟩ := split_amp_cons _ _ _ _ h1 h
      exact ih _ _ e.symm

/-! ## Views -/

theorem confirmedEntries_removeEmptyState (v : List Node) :
    confirmedEntries (removeEmptyState v) = confirmedEntries v := by
  induction v with
  | nil => rfl
  | cons n v ih =>
    cases n with
    | message t i o h => simp only [removeEmptyState, confirmedEntries, List.filter_cons] at ih ⊢; rw [ih]
    | emptyState h => simp [removeEmptyState, confirmedEntries, Node.isConfirmed]
    | text d => simp only [removeEmptyState, confirmedEntries, List.filter_cons] at ih ⊢; rw [ih]

theorem entries_removeEmptyState (v : List Node) :
    entries (removeEmptyState v) = entries v := by
  induction v with
  | nil => rfl
  | cons n v ih =>
    cases n with
    | message t i o h => simp only [removeEmptyState, entries, List.filter_cons] at ih ⊢; rw [ih]
    | emptyState h => simp [removeEmptyState, entries, Node.isMessage]
    | text d => simp only [removeEmptyState, entries, List.filter_cons] at ih ⊢; rw [ih]

theorem tempIds_removeEmptyState (v : List Node) :
    tempIds (removeEmptyState v) = tempIds v := by
  induction v with
  | nil => rfl
  | cons n v ih =>
    cases n with
    | message t i o h => simp only [removeEmptyState, tempIds, List.filterMap_cons] at ih ⊢; rw [ih]
    | emptyState h => simp [removeEmptyState, tempIds, Node.tempId?]
    | text d => simp only [removeEmptyState, tempIds, List.filterMap_cons] at ih ⊢; rw [ih]

theorem confirmedEntries_removeCarrier (x : String) (v : List Node) :
    confirmedEntries (removeCarrier x v) = confirmedEntries v := by
  induction v with
  | nil => rfl
  | cons n v ih =>
    rw [removeCarrier]
    split_ifs with h
    · cases n with
      | message t i o m =>
        cases i with
        | none => simp [Node.tempId?] at h
        | some y => simp [confirmedEntries, Node.isConfirmed]
      | emptyState m => simp [Node.tempId?] at h
      | text d => simp [Node.tempId?] at h
    · simp only [confirmedEntries, List.filter_cons] at ih ⊢; rw [ih]

theorem tempIds_removeCarrier (x : String) (v : List Node) :
    tempIds (removeCarrier x v) = (tempIds v).erase x := by
  induction v with
  | nil => rfl
  | cons n v ih =>
    rw [removeCarrier]
    split_ifs with h
    · simp [tempIds, List.filterMap_cons, h]
    · cases hn : n.tempId? with
      | none => simp only [tempIds, List.filterMap_cons, hn] at ih ⊢; exact ih
      | some y =>
        have hy : y ≠ x := by
          intro e; apply h; rw [hn, e]
        simp only [tempIds, List.filterMap_cons, hn] at ih ⊢
        rw [ih, List.erase_cons_tail]
        simpa using hy

theorem entries_append (v w : List Node) : entries (v ++ w) = entries v ++ entries w := by
  simp [entries]

theorem confirmedEntries_append (v w : List Node) :
    confirmedEntries (v ++ w) = confirmedEntries v ++ confirmedEntries w := by
  simp [confirmedEntries]

theorem tempIds_append (v w : List Node) : tempIds (v ++ w) = tempIds v ++ tempIds w := by
  simp [tempIds]

theorem confirmedEntries_messageDiv (env : Env) (data : MessageData) (type : MsgType) :
    confirmedEntries [messageDiv env data type false] = [messageDiv env data type false] := by
  simp [confirmedEntries, messageDiv, Node.isConfirmed]

theorem entries_messageDiv (env : Env) (data : MessageData) (type : MsgType) (b : Bool) :
    entries [messageDiv env data type b] = [messageDiv env data type b] := by
  simp [entries, messageDiv, Node.isMessage]

theorem tempIds_messageDiv_false (env : Env) (data : MessageData) (type : MsgType) :
    tempIds [messageDiv env data type false] = [] := by
  simp [tempIds, messageDiv, Node.tempId?]

theorem tempIds_messageDiv_true (env : Env) (data : MessageData) (type : MsgType) :
    tempIds [messageDiv env data type true] = [data.tempId.getD "undefined"] := by
  simp [tempIds, messageDiv, Node.tempId?]

theorem list_ne_append_singleton {α : Type} (l : List α) (a : α) : l ≠ l ++ [a] := by
  intro h
  have := congrArg List.length h
  simp at this

/-! ## The selector -/

theorem cssStringValue_of_plain (cs : List Char) (h : cs.all (fun c => !isCssSpecial c) = true) :
    cssStringValue false cs = some cs := by
  induction cs with
  | nil => rfl
  | cons c cs ih =>
    simp only [List.all_cons, Bool.and_eq_true, Bool.not_eq_true'] at h
    have hb : c ≠ backslash := by
      intro e
      have := h.1
      simp [isCssSpecial, e] at this
    simp only [cssStringValue, Bool.false_eq_true, if_false, if_neg hb, h.1, ih h.2,
      Option.map_some']

theorem selectorValue_of_plain (x : String) (h : cssPlain x = true) :
    selectorValue x = some x := by
  unfold selectorValue
  rw [cssStringValue_of_plain x.data h]
  rfl

theorem selectorInvalid_of_plain (x : String) (h : cssPlain x = true) :
    selectorInvalid x = false := by
  unfold selectorInvalid
  have hq : x.data.contains dquote = false := by
    rw [Bool.eq_false_iff]
    intro hc
    have hm : dquote ∈ x.data := by simpa using hc
    have := List.all_eq_true.1 h dquote hm
    simp [isCssSpecial] at this
  rw [hq]
  rfl

theorem querySelectorTemp_of_plain (env : Env) (x : String) (view : List Node)
    (h : cssPlain x = true) :
    querySelectorTemp env x view = some (removeCarrier x view) := by
  unfold querySelectorTemp
  rw [selectorInvalid_of_plain x h, selectorValue_of_plain x h]
  rfl

theorem tempIds_eraseIdx_sublist (i : Nat) (v : List Node) :
    (tempIds (v.eraseIdx i)).Sublist (tempIds v) :=
  (List.eraseIdx_sublist v i).filterMap _

theorem confirmedEntries_eraseIdx_sublist (i : Nat) (v : List Node) :
    (confirmedEntries (v.eraseIdx i)).Sublist (confirmedEntries v) :=
  (List.eraseIdx_sublist v i).filter _

theorem querySelectorTemp_sublist (env : Env) (x : String) (view view1 : List Node)
    (h : querySelectorTemp env x view = some view1) :
    (tempIds view1).Sublist (tempIds view) := by
  unfold querySelectorTemp at h
  split_ifs at h
  split at h
  · rename_i value _
    simp only [Option.some.injEq] at h
    rw [← h, tempIds_removeCarrier]
    exact List.erase_sublist _ _
  · split at h
    · exact absurd h (by simp)
    · simp only [Option.some.injEq] at h
      rw [← h]
    · simp only [Option.some.injEq] at h
      rw [← h]
      exact tempIds_eraseIdx_sublist _ _

theorem digitChar_plain (d : Nat) (h : d < 10) : isCssSpecial (Nat.digitChar d) = false := by
  interval_cases d <;> decide

theorem toDigitsCore_plain (fuel n : Nat) (ds : List Char)
    (h : ∀ c ∈ ds, isCssSpecial c = false) :
    ∀ c ∈ Nat.toDigitsCore 10 fuel n ds, isCssSpecial c = false := by
  induction fuel generalizing n ds with
  | zero => simpa [Nat.toDigitsCore] using h
  | succ fuel ih =>
    have hd : ∀ c ∈ Nat.digitChar (n % 10) :: ds, isCssSpecial c = false := by
      intro c hc
      rcases List.mem_cons.1 hc with hc | hc
      · rw [hc]; exact digitChar_plain _ (Nat.mod_lt _ (by decide))
      · exact h c hc
    simp only [Nat.toDigitsCore]
    split_ifs
    · exact hd
    · exact ih _ _ hd

theorem toString_plain (n : Nat) : ∀ c ∈ (toString n).data, isCssSpecial c = false := by
  show ∀ c ∈ (Nat.toDigits 10 n).asString.data, isCssSpecial c = false
  exact toDigitsCore_plain _ _ [] (fun c hc => absurd hc (List.not_mem_nil _))

theorem base36Char_plain (d : Fin 36) : isCssSpecial (base36Char d) = false := by
  revert d
  decide

theorem messageId_plain (env : Env) : cssPlain (messageId env) = true := by
  unfold cssPlain messageId randomToken
  rw [List.all_eq_true]
  intro c hc
  simp only [String.data_append, List.mem_append] at hc
  have : isCssSpecial c = false := by
    rcases hc with (hc | hc) | hc
    · exact toString_plain _ c hc
    · have hc : c ∈ ['_'] := hc
      rw [List.mem_singleton] at hc
      rw [hc]; decide
    · have hc : c ∈ (env.random.take 9).map base36Char := hc
      obtain ⟨d, _, hd⟩ := List.mem_map.1 hc
      rw [← hd]; exact base36Char_plain d
  simp [this]

/-! ## Routing (C1) -/

theorem handleReceivedMessage_of_not_passesRouting (env : Env) (s : State) (msg : MessageData)
    (h : passesRouting s msg = false) : handleReceivedMessage env s msg = s := by
  unfold handleReceivedMessage
  by_cases ht : s.currentReceiverId.truthy = false
  · rw [if_pos ht]
  · rw [if_neg ht]
    have ht2 : s.currentReceiverId.truthy = true := by simpa using ht
    simp only [passesRouting, targetMatches, ht2, Bool.true_and, Bool.or_eq_false_iff] at h
    rw [if_pos h]

theorem handleReceivedMessage_of_passesRouting (env : Env) (s : State) (msg : MessageData)
    (h : passesRouting s msg = true) :
    handleReceivedMessage env s msg =
      if msg.sender_id.strictEq s.userId = true ∧ strTruthy msg.tempId = true then
        match replaceTempMessage env s (msg.tempId.getD "") msg with
        | none => s
        | some s1 => { s1 with messageQueue := setDelete s1.messageQueue (msg.tempId.getD "") }
      else
        displayMessage env s msg
          (if msg.sender_id.strictEq s.userId then MsgType.sent else MsgType.received) false := by
  simp only [passesRouting, targetMatches, Bool.and_eq_true, Bool.or_eq_true] at h
  obtain ⟨ht, hm⟩ := h
  unfold handleReceivedMessage
  rw [if_neg (by simp [ht])]
  rw [if_neg (by
    intro hc
    rcases hm with hm | hm
    · rw [hc.1] at hm; exact Bool.noConfusion hm
    · rw [hc.2] at hm; exact Bool.noConfusion hm)]
  by_cases hs : msg.sender_id.strictEq s.userId = true
  · simp [hs]
  · have hs2 : msg.sender_id.strictEq s.userId = false := by simpa using hs
    simp [hs2]

theorem handleReceivedMessage_query_some (env : Env) (s : State) (msg : MessageData)
    (view : List Node) (h : passesRouting s msg = true)
    (hr : reachesSelector s msg = true)
    (hq : querySelectorTemp env (msg.tempId.getD "") s.messages = some view) :
    handleReceivedMessage env s msg =
      { displayMessage env { s with messages := view } msg MsgType.sent false with
        messageQueue := setDelete s.messageQueue (msg.tempId.getD "") } := by
  simp only [reachesSelector, Bool.and_eq_true] at hr
  rw [handleReceivedMessage_of_passesRouting env s msg h, if_pos hr]
  simp only [replaceTempMessage, hq]
  rfl

theorem handleReceivedMessage_query_none (env : Env) (s : State) (msg : MessageData)
    (h : passesRouting s msg = true) (hr : reachesSelector s msg = true)
    (hq : querySelectorTemp env (msg.tempId.getD "") s.messages = none) :
    handleReceivedMessage env s msg = s := by
  simp only [reachesSelector, Bool.and_eq_true] at hr
  rw [handleReceivedMessage_of_passesRouting env s msg h, if_pos hr]
  simp only [replaceTempMessage, hq]

theorem handleReceivedMessage_echo (env : Env) (s : State) (msg : MessageData)
    (h : passesRouting s msg = true) (hs : msg.sender_id.strictEq s.userId = true)
    (hx : strTruthy msg.tempId = true) (hp : cssPlain (msg.tempId.getD "") = true) :
    handleReceivedMessage env s msg =
      { displayMessage env { s with messages := removeCarrier (msg.tempId.getD "") s.messages }
          msg MsgType.sent false with
        messageQueue := setDelete s.messageQueue (msg.tempId.getD "") } :=
  handleReceivedMessage_query_some env s msg _ h (by simp [reachesSelector, hs, hx])
    (querySelectorTemp_of_plain env _ _ hp)

theorem handleReceivedMessage_plain (env : Env) (s : State) (msg : MessageData)
    (h : passesRouting s msg = true)
    (hx : ¬ (msg.sender_id.strictEq s.userId = true ∧ strTruthy msg.tempId = true)) :
    handleReceivedMessage env s msg =
      displayMessage env s msg
        (if msg.sender_id.strictEq s.userId then MsgType.sent else MsgType.received) false := by
  rw [handleReceivedMessage_of_passesRouting env s msg h, if_neg hx]

theorem confirmedEntries_handleReceivedMessage (env : Env) (s : State) (msg : MessageData)
    (h : passesRouting s msg = true) (hsafe : selectorSafe s msg = true) :
    confirmedEntries (handleReceivedMessage env s msg).messages =
      confirmedEntries s.messages ++
        [messageDiv env msg
          (if msg.sender_id.strictEq s.userId then MsgType.sent else MsgType.received) false] := by
  by_cases hc : msg.sender_id.strictEq s.userId = true ∧ strTruthy msg.tempId = true
  · have hp : cssPlain (msg.tempId.getD "") = true := by
      simpa [selectorSafe, reachesSelector, hc.1, hc.2] using hsafe
    rw [handleReceivedMessage_echo env s msg h hc.1 hc.2 hp, if_pos hc.1]
    simp only [displayMessage]
    rw [confirmedEntries_append, confirmedEntries_removeEmptyState,
      confirmedEntries_removeCarrier, confirmedEntries_messageDiv]
  · rw [handleReceivedMessage_plain env s msg h hc]
    simp only [displayMessage]
    rw [confirmedEntries_append, confirmedEntries_removeEmptyState,
      confirmedEntries_messageDiv]

/-- C1 (as amended): for every state and every inbound event that does not
reach the selector of `replaceTempMessage` with a quote, backslash, line break
or `NUL` in its provisional id, the event is rendered (exactly one confirmed
entry built from it is appended) if and only if the current receiver id is a
non-zero number and strictly equals the sender or the receiver of the event;
whenever that routing condition fails the view and the pending set are as
before. -/
theorem handleReceivedMessage_renders_iff (env : Env) (s : State) (msg : MessageData)
    (hsafe : selectorSafe s msg = true) :
    (renders env s (handleReceivedMessage env s msg) msg = true ↔ passesRouting s msg = true) ∧
    (passesRouting s msg = false →
      (handleReceivedMessage env s msg).messages = s.messages ∧
      (handleReceivedMessage env s msg).messageQueue = s.messageQueue) := by
  constructor
  · constructor
    · intro hr
      by_contra hp
      have hp2 : passesRouting s msg = false := by simpa using hp
      rw [handleReceivedMessage_of_not_passesRouting env s msg hp2] at hr
      simp only [renders, Bool.or_eq_true, decide_eq_true_eq] at hr
      rcases hr with hr | hr <;> exact list_ne_append_singleton _ _ hr
    · intro hp
      have h := confirmedEntries_handleReceivedMessage env s msg hp hsafe
      simp only [renders, Bool.or_eq_true, decide_eq_true_eq]
      by_cases hs : msg.sender_id.strictEq s.userId = true
      · left; rw [h, if_pos hs]
      · right; rw [h, if_neg hs]
  · intro hp
    rw [handleReceivedMessage_of_not_passesRouting env s msg hp]
    exact ⟨rfl, rfl⟩

theorem handleReceivedMessage_renders_iff_witness :
    selectorSafe samplePending sampleEcho = true ∧
    (renders laterEnv samplePending (handleReceivedMessage laterEnv samplePending sampleEcho)
        sampleEcho = true ↔ passesRouting samplePending sampleEcho = true) ∧
    passesRouting samplePending sampleEcho = true :=
  ⟨by decide,
    (handleReceivedMessage_renders_iff laterEnv samplePending sampleEcho (by decide)).1,
    by decide⟩

/-- C1 (as stated) fails: after `selectFriend` on a friend entry whose id is
`"0"`, an event sent by user `0` matches the active target but is not
rendered. -/
theorem handleReceivedMessage_drops_friend_zero :
    targetMatches
        (selectFriend (new (some "1") []) { id := some "0", username := some "Zed" })
        { sender_id := JSVal.num 0, receiver_id := JSVal.num 1, message := "hello",
          timestamp := some "10:00", tempId := none } = true ∧
    renders sampleEnv
        (selectFriend (new (some "1") []) { id := some "0", username := some "Zed" })
        (handleReceivedMessage sampleEnv
          (selectFriend (new (some "1") []) { id := some "0", username := some "Zed" })
          { sender_id := JSVal.num 0, receiver_id := JSVal.num 1, message := "hello",
            timestamp := some "10:00", tempId := none })
        { sender_id := JSVal.num 0, receiver_id := JSVal.num 1, message := "hello",
          timestamp := some "10:00", tempId := none } = false := by
  constructor
  · decide
  · decide

/-! ## Composing (C6, C7) -/

theorem accepts_iff (s : State) :
    accepts s = true ↔
      jsTrim s.chatInput ≠ "" ∧ ∃ n : Int, n ≠ 0 ∧ s.currentReceiverId = JSVal.num n := by
  unfold accepts
  cases h : s.currentReceiverId with
  | null => simp [JSVal.truthy]
  | nan => simp [JSVal.truthy]
  | num n => simp [JSVal.truthy]

theorem sendMessage_of_not_accepts (env : Env) (s : State) (h : accepts s = false) :
    sendMessage env s = s := by
  unfold sendMessage
  rw [if_pos]
  simp only [accepts, Bool.and_eq_false_iff, bne_eq_false_iff_eq] at h
  exact h

theorem sendMessage_of_accepts (env : Env) (s : State) (h : accepts s = true) :
    sendMessage env s = { sendEmitted env s with chatInput := "" } := by
  unfold sendMessage
  rw [if_neg]
  simp only [accepts, Bool.and_eq_true, bne_iff_ne, ne_eq] at h
  intro hc
  rcases hc with hc | hc
  · exact h.1 hc
  · rw [h.2] at hc; exact Bool.noConfusion hc

theorem mem_setAdd (q : List String) (x y : String) : y ∈ setAdd q x ↔ y = x ∨ y ∈ q := by
  unfold setAdd
  split_ifs with h
  · constructor
    · intro hy; exact Or.inr hy
    · rintro (rfl | hy)
      · exact h
      · exact hy
  · simp [or_comm]

theorem mem_setDelete (q : List String) (x y : String) : y ∈ setDelete q x ↔ y ∈ q ∧ y ≠ x := by
  simp [setDelete]

/-- C6 (as amended): `sendMessage` changes nothing (pending set, view, emitted
events, input) whenever the trimmed text is empty or the current receiver id
is falsy, that is unset, `NaN` or `0`; and a message is accepted exactly when
the trimmed text is non-empty and the current receiver id is a non-zero
number, in which case one send event is emitted. -/
theorem sendMessage_rejects_iff (env : Env) (s : State) :
    (jsTrim s.chatInput = "" ∨ s.currentReceiverId.truthy = false → sendMessage env s = s) ∧
    (accepts s = true ↔
      jsTrim s.chatInput ≠ "" ∧ ∃ n : Int, n ≠ 0 ∧ s.currentReceiverId = JSVal.num n) ∧
    (accepts s = false → sendMessage env s = s) ∧
    (accepts s = true → (sendMessage env s).emitted = s.emitted ++ [sendEvent env s]) := by
  refine ⟨?_, accepts_iff s, sendMessage_of_not_accepts env s, ?_⟩
  · intro h
    unfold sendMessage
    rw [if_pos h]
  · intro h
    rw [sendMessage_of_accepts env s h]
    rfl

/-- C6 (as stated) fails: with the friend entry of id `"0"` selected and the
text `"hi"` typed, `sendMessage` rejects the message and changes nothing. -/
theorem sendMessage_rejects_friend_zero :
    jsTrim "hi" ≠ "" ∧
    (selectFriend (new (some "1") []) { id := some "0", username := some "Zed" }).currentReceiverId
      = JSVal.num 0 ∧
    accepts { selectFriend (new (some "1") []) { id := some "0", username := some "Zed" } with
      chatInput := "hi" } = false ∧
    sendMessage sampleEnv
      { selectFriend (new (some "1") []) { id := some "0", username := some "Zed" } with
        chatInput := "hi" }
      = { selectFriend (new (some "1") []) { id := some "0", username := some "Zed" } with
        chatInput := "hi" } := by
  refine ⟨by decide, by decide, by decide, ?_⟩
  exact sendMessage_of_not_accepts _ _ (by decide)

theorem sendMessage_effects (env : Env) (s : State) (h : accepts s = true) :
    ((sendQueued env s).messageQueue = setAdd s.messageQueue (messageId env) ∧
      messageId env ∈ (sendQueued env s).messageQueue ∧
      (∀ y, y ∈ (sendQueued env s).messageQueue ↔ y = messageId env ∨ y ∈ s.messageQueue) ∧
      (messageId env ∉ s.messageQueue →
        (sendQueued env s).messageQueue = s.messageQueue ++ [messageId env]) ∧
      (sendQueued env s).messages = s.messages ∧
      (sendQueued env s).emitted = s.emitted) ∧
    ((sendDisplayed env s).messages =
        removeEmptyState s.messages ++
          [Node.message MsgType.sent (some (messageId env)) "0.7"
            (messageMarkup (escapeHtml (jsTrim s.chatInput)) env.localeTime true)] ∧
      entries (sendDisplayed env s).messages =
        entries s.messages ++
          [Node.message MsgType.sent (some (messageId env)) "0.7"
            (messageMarkup (escapeHtml (jsTrim s.chatInput)) env.localeTime true)] ∧
      (sendDisplayed env s).messageQueue = (sendQueued env s).messageQueue ∧
      (sendDisplayed env s).emitted = s.emitted) ∧
    ((sendEmitted env s).emitted =
        s.emitted ++
          [{ message := jsTrim s.chatInput, receiver_id := s.currentReceiverId,
             sender_id := s.userId, tempId := messageId env }] ∧
      (sendEmitted env s).messages = (sendDisplayed env s).messages ∧
      (sendEmitted env s).messageQueue = (sendQueued env s).messageQueue) ∧
    sendMessage env s = { sendEmitted env s with chatInput := "" } := by
  have hdiv : messageDiv env (pendingData env s) MsgType.sent true =
      Node.message MsgType.sent (some (messageId env)) "0.7"
        (messageMarkup (escapeHtml (jsTrim s.chatInput)) env.localeTime true) := by
    by_cases ht : env.localeTime = ""
    · simp [messageDiv, pendingData, strTruthy, ht]
    · simp [messageDiv, pendingData, strTruthy, ht]
  refine ⟨⟨rfl, ?_, ?_, ?_, rfl, rfl⟩, ⟨?_, ?_, rfl, rfl⟩, ⟨rfl, rfl, rfl⟩,
    sendMessage_of_accepts env s h⟩
  · exact (mem_setAdd _ _ _).2 (Or.inl rfl)
  · intro y; exact mem_setAdd _ _ _
  · intro hx
    show setAdd s.messageQueue (messageId env) = _
    unfold setAdd
    rw [if_neg hx]
  · show removeEmptyState s.messages ++ [messageDiv env (pendingData env s) MsgType.sent true] = _
    rw [hdiv]
  · show entries (removeEmptyState s.messages ++
      [messageDiv env (pendingData env s) MsgType.sent true]) = _
    rw [entries_append, entries_removeEmptyState, entries_messageDiv, hdiv]

/-- C7 fails on the code: the second of two messages sent at the same clock
reading and with the same random value gets the provisional id of the first;
no new id enters the pending set, and two nodes of the view carry the id. -/
theorem sendMessage_repeats_id :
    accepts sampleRetyped = true ∧ messageId sampleEnv = "5_a" ∧
    sampleRetyped.messageQueue = ["5_a"] ∧
    (sendMessage sampleEnv sampleRetyped).messageQueue = ["5_a"] ∧
    (carrying "5_a" (sendMessage sampleEnv sampleRetyped).messages).length = 2 ∧
    (sendMessage sampleEnv sampleRetyped).emitted =
      [{ message := "hi", receiver_id := JSVal.num 7, sender_id := JSVal.num 1,
         tempId := "5_a" },
       { message := "two", receiver_id := JSVal.num 7, sender_id := JSVal.num 1,
         tempId := "5_a" }] := by
  refine ⟨by decide, by decide, by decide, by decide, by decide, by decide⟩

/-! ## Text as data (C9, C10) -/

theorem decodeHtml_escapeHtml (text : String) : decodeHtml (escapeHtml text) = text := by
  unfold decodeHtml escapeHtml
  simp only [decodeChars_escapeChars]

/-- C9: for every message body, the entry `displayMessage` appends has the
markup of the template with the body passed through `escapeHtml`; the escaped
body decodes back to the body character for character, contains neither `<`
nor `>`, and each `&` in it starts one of the references `&amp;`, `&lt;`,
`&gt;`, `&nbsp;`. -/
theorem displayMessage_body_is_escaped (env : Env) (s : State) (data : MessageData)
    (type : MsgType) (isTemporary : Bool) :
    (displayMessage env s data type isTemporary).messages =
      removeEmptyState s.messages ++
        [Node.message type
          (if isTemporary then some (data.tempId.getD "undefined") else none)
          (if isTemporary then "0.7" else "")
          (messageMarkup (escapeHtml data.message)
            (if strTruthy data.timestamp then data.timestamp.getD "" else env.localeTime)
            isTemporary)] ∧
    decodeHtml (escapeHtml data.message) = data.message ∧
    (∀ c ∈ (escapeHtml data.message).data, c ≠ '<' ∧ c ≠ '>') ∧
    (∀ pre post, (escapeHtml data.message).data = pre ++ '&' :: post →
      "amp;".data <+: post ∨ "lt;".data <+: post ∨ "gt;".data <+: post ∨
        "nbsp;".data <+: post) :=
  ⟨rfl, decodeHtml_escapeHtml data.message, escapeChars_no_angle data.message.data,
    escapeChars_amp data.message.data⟩

/-- C10 fails on the code: an `error` string of the History Service and the
`error` and `success` strings of the Friend Search Service reach the page as
they are, while `escapeHtml` would have rewritten them. -/
theorem service_strings_not_escaped :
    (loadMessagesDone sampleEnv
        (selectFriend (new (some "1") []) { id := some "7", username := some "Alex" })
        (HistoryResponse.errorPayload "<b>x</b>")).messages
      = [Node.emptyState "<div class=\"empty-state\"><div>⚠️</div><p><b>x</b></p></div>"] ∧
    searchFriend "bob" (SearchResponse.json (some "<b>x</b>") none)
      = "<p class=\"error\"><b>x</b></p>" ∧
    searchFriend "bob" (SearchResponse.json none (some "<b>x</b>"))
      = "<p class=\"success\"><b>x</b></p>" ∧
    escapeHtml "<b>x</b>" = "&lt;b&gt;x&lt;/b&gt;" := by
  refine ⟨by decide, by decide, by decide, by decide⟩
/-! ## Selection and history (C8) -/

theorem messageDiv_env (env env1 : Env) (data : MessageData) (type : MsgType)
    (h : strTruthy data.timestamp = true ∨ env1.localeTime = env.localeTime) :
    messageDiv env1 data type false = messageDiv env data type false := by
  unfold messageDiv
  rcases h with h | h
  · simp [h]
  · simp [h]

theorem displayAll_fields (env : Env) (data : List MessageData) (s : State) :
    (displayAll env s data).currentReceiverId = s.currentReceiverId ∧
    (displayAll env s data).currentReceiverName = s.currentReceiverName ∧
    (displayAll env s data).userId = s.userId ∧
    (displayAll env s data).messageQueue = s.messageQueue ∧
    (displayAll env s data).chatInput = s.chatInput ∧
    (displayAll env s data).emitted = s.emitted := by
  induction data generalizing s with
  | nil => exact ⟨rfl, rfl, rfl, rfl, rfl, rfl⟩
  | cons m ms ih =>
    rw [displayAll]
    exact ih _

theorem displayAll_messages (env env1 : Env) (data : List MessageData) (s t : State)
    (hu : t.userId = s.userId) (hm : t.messages = s.messages)
    (h : data.all (fun m => strTruthy m.timestamp) = true ∨ env1.localeTime = env.localeTime) :
    (displayAll env1 t data).messages = (displayAll env s data).messages := by
  induction data generalizing s t with
  | nil => exact hm
  | cons m ms ih =>
    rw [displayAll, displayAll]
    apply ih
    · exact hu
    · simp only [displayMessage, hu, hm]
      rw [messageDiv_env env env1 m _ ?_]
      rcases h with h | h
      · left; simp only [List.all_cons, Bool.and_eq_true] at h; exact h.1
      · right; exact h
    · rcases h with h | h
      · left; simp only [List.all_cons, Bool.and_eq_true] at h; exact h.2
      · right; exact h

theorem loadMessagesDone_fields (env : Env) (s : State) (resp : HistoryResponse) :
    (loadMessagesDone env s resp).currentReceiverId = s.currentReceiverId ∧
    (loadMessagesDone env s resp).currentReceiverName = s.currentReceiverName ∧
    (loadMessagesDone env s resp).userId = s.userId ∧
    (loadMessagesDone env s resp).messageQueue = s.messageQueue ∧
    (loadMessagesDone env s resp).chatInput = s.chatInput ∧
    (loadMessagesDone env s resp).emitted = s.emitted := by
  cases resp with
  | failure => exact ⟨rfl, rfl, rfl, rfl, rfl, rfl⟩
  | errorPayload e =>
    simp only [loadMessagesDone]
    split_ifs <;> exact ⟨rfl, rfl, rfl, rfl, rfl, rfl⟩
  | records data =>
    cases data with
    | nil => exact ⟨rfl, rfl, rfl, rfl, rfl, rfl⟩
    | cons m ms => exact displayAll_fields env (m :: ms) _

theorem loadMessagesDone_messages (env env1 : Env) (s t : State) (resp : HistoryResponse)
    (hu : t.userId = s.userId)
    (h : stamped resp = true ∨ env1.localeTime = env.localeTime) :
    (loadMessagesDone env1 t resp).messages = (loadMessagesDone env s resp).messages := by
  cases resp with
  | failure => rfl
  | errorPayload e =>
    simp only [loadMessagesDone]
    split_ifs <;> rfl
  | records data =>
    cases data with
    | nil => rfl
    | cons m ms => exact displayAll_messages env env1 (m :: ms) _ _ hu rfl h

theorem State.ext_fields (a b : State)
    (h1 : a.currentReceiverId = b.currentReceiverId)
    (h2 : a.currentReceiverName = b.currentReceiverName)
    (h3 : a.userId = b.userId) (h4 : a.messageQueue = b.messageQueue)
    (h5 : a.messages = b.messages) (h6 : a.chatInput = b.chatInput)
    (h7 : a.emitted = b.emitted) : a = b := by
  cases a; cases b; simp_all

theorem loadMessagesDone_congr (env env1 : Env) (s t : State) (resp : HistoryResponse)
    (h1 : t.currentReceiverId = s.currentReceiverId)
    (h2 : t.currentReceiverName = s.currentReceiverName)
    (h3 : t.userId = s.userId) (h4 : t.messageQueue = s.messageQueue)
    (h6 : t.chatInput = s.chatInput) (h7 : t.emitted = s.emitted)
    (h : stamped resp = true ∨ env1.localeTime = env.localeTime) :
    loadMessagesDone env1 t resp = loadMessagesDone env s resp := by
  obtain ⟨a1, a2, a3, a4, a5, a6⟩ := loadMessagesDone_fields env1 t resp
  obtain ⟨b1, b2, b3, b4, b5, b6⟩ := loadMessagesDone_fields env s resp
  apply State.ext_fields
  · rw [a1, b1, h1]
  · rw [a2, b2, h2]
  · rw [a3, b3, h3]
  · rw [a4, b4, h4]
  · exact loadMessagesDone_messages env env1 s t resp h3 h
  · rw [a5, b5, h6]
  · rw [a6, b6, h7]

theorem selectFriend_currentReceiverId (s : State) (friendEl : FriendEl) :
    (selectFriend s friendEl).currentReceiverId = parseIntAttr friendEl.id := by
  simp only [selectFriend]; split_ifs <;> rfl

theorem selectFriend_currentReceiverName (s : State) (friendEl : FriendEl) :
    (selectFriend s friendEl).currentReceiverName = friendEl.username := by
  simp only [selectFriend]; split_ifs <;> rfl

theorem selectFriend_userId (s : State) (friendEl : FriendEl) :
    (selectFriend s friendEl).userId = s.userId := by
  simp only [selectFriend]; split_ifs <;> rfl

theorem selectFriend_messageQueue (s : State) (friendEl : FriendEl) :
    (selectFriend s friendEl).messageQueue = s.messageQueue := by
  simp only [selectFriend]; split_ifs <;> rfl

theorem selectFriend_chatInput (s : State) (friendEl : FriendEl) :
    (selectFriend s friendEl).chatInput = s.chatInput := by
  simp only [selectFriend]; split_ifs <;> rfl

theorem selectFriend_emitted (s : State) (friendEl : FriendEl) :
    (selectFriend s friendEl).emitted = s.emitted := by
  simp only [selectFriend]; split_ifs <;> rfl

theorem selectFriend_messages (s : State) (friendEl : FriendEl) :
    (selectFriend s friendEl).messages =
      if headerThrows friendEl.username then s.messages else [Node.emptyState loadingMarkup] := by
  simp only [selectFriend]; split_ifs <;> rfl

/-- C8 (as amended): when every record of the response carries a timestamp,
or the loads being compared settle at the same clock reading, selecting a
friend twice in a row with the same response ends in the same state (active
target and view included) as selecting it once, whether the first load settles
before or after the second click; and the view after a settled load is the
same from every prior state with the same local user id. -/
theorem selectFriend_twice_eq_once (env0 env1 env : Env) (s : State) (friendEl : FriendEl)
    (resp : HistoryResponse)
    (h : stamped resp = true ∨ env1.localeTime = env.localeTime) :
    selectAndLoad env1 (selectAndLoad env0 s friendEl resp) friendEl resp
      = selectAndLoad env s friendEl resp ∧
    (startsLoad friendEl = true →
      loadMessagesDone env1
          (loadMessagesDone env0 (selectFriend (selectFriend s friendEl) friendEl) resp) resp
        = selectAndLoad env s friendEl resp) ∧
    (∀ t : State, t.userId = s.userId →
      (loadMessagesDone env1 (selectFriend t friendEl) resp).messages
        = (loadMessagesDone env (selectFriend s friendEl) resp).messages) := by
  refine ⟨?_, ?_, ?_⟩
  · unfold selectAndLoad
    by_cases hl : startsLoad friendEl = true
    · simp only [hl, if_true]
      obtain ⟨a1, a2, a3, a4, a5, a6⟩ :=
        loadMessagesDone_fields env0 (selectFriend s friendEl) resp
      apply loadMessagesDone_congr env env1 _ _ resp _ _ _ _ _ _ h
      · simp only [selectFriend_currentReceiverId]
      · simp only [selectFriend_currentReceiverName]
      · simp only [selectFriend_userId, a3]
      · simp only [selectFriend_messageQueue, a4]
      · simp only [selectFriend_chatInput, a5]
      · simp only [selectFriend_emitted, a6]
    · simp only [hl, Bool.false_eq_true, if_false]
      have hh : headerThrows friendEl.username = true := by
        simpa [startsLoad] using hl
      apply State.ext_fields
      · simp only [selectFriend_currentReceiverId]
      · simp only [selectFriend_currentReceiverName]
      · simp only [selectFriend_userId]
      · simp only [selectFriend_messageQueue]
      · simp only [selectFriend_messages, hh, if_true]
      · simp only [selectFriend_chatInput]
      · simp only [selectFriend_emitted]
  · intro hl
    unfold selectAndLoad
    rw [if_pos hl]
    obtain ⟨a1, a2, a3, a4, a5, a6⟩ :=
      loadMessagesDone_fields env0 (selectFriend (selectFriend s friendEl) friendEl) resp
    apply loadMessagesDone_congr env env1 _ _ resp _ _ _ _ _ _ h
    · simp only [a1, selectFriend_currentReceiverId]
    · simp only [a2, selectFriend_currentReceiverName]
    · simp only [a3, selectFriend_userId]
    · simp only [a4, selectFriend_messageQueue]
    · simp only [a5, selectFriend_chatInput]
    · simp only [a6, selectFriend_emitted]
  · intro t ht
    apply loadMessagesDone_messages env env1 _ _ resp _ h
    simp only [selectFriend_userId, ht]

theorem selectFriend_twice_eq_once_witness :
    (stamped (HistoryResponse.records
        [{ sender_id := JSVal.num 7, receiver_id := JSVal.num 1, message := "hello",
           timestamp := some "09:59", tempId := none }]) = true ∨
      ("10:01" : String) = "10:00") ∧
    selectAndLoad laterEnv
        (selectAndLoad sampleEnv
          (new (some "1") []) { id := some "7", username := some "Alex" }
          (HistoryResponse.records
            [{ sender_id := JSVal.num 7, receiver_id := JSVal.num 1, message := "hello",
               timestamp := some "09:59", tempId := none }]))
        { id := some "7", username := some "Alex" }
        (HistoryResponse.records
          [{ sender_id := JSVal.num 7, receiver_id := JSVal.num 1, message := "hello",
             timestamp := some "09:59", tempId := none }])
      = selectAndLoad sampleEnv
          (new (some "1") []) { id := some "7", username := some "Alex" }
          (HistoryResponse.records
            [{ sender_id := JSVal.num 7, receiver_id := JSVal.num 1, message := "hello",
               timestamp := some "09:59", tempId := none }]) :=
  ⟨Or.inl (by decide),
    (selectFriend_twice_eq_once sampleEnv
      laterEnv
      sampleEnv
      (new (some "1") []) { id := some "7", username := some "Alex" }
      (HistoryResponse.records
        [{ sender_id := JSVal.num 7, receiver_id := JSVal.num 1, message := "hello",
           timestamp := some "09:59", tempId := none }])
      (Or.inl (by decide))).1⟩

/-- C8 (as stated) fails: a history record without a timestamp is shown with
the clock reading of the moment it is rendered, so the view after the second
selection (settled at 10:01) differs from the view after the first (settled at
10:00) although the response is the same. -/
theorem selectFriend_twice_clock :
    (selectAndLoad laterEnv
        (selectAndLoad sampleEnv
          (new (some "1") []) { id := some "7", username := some "Alex" }
          (HistoryResponse.records
            [{ sender_id := JSVal.num 7, receiver_id := JSVal.num 1, message := "hello",
               timestamp := none, tempId := none }]))
        { id := some "7", username := some "Alex" }
        (HistoryResponse.records
          [{ sender_id := JSVal.num 7, receiver_id := JSVal.num 1, message := "hello",
             timestamp := none, tempId := none }])).messages
      ≠ (selectAndLoad sampleEnv
          (new (some "1") []) { id := some "7", username := some "Alex" }
          (HistoryResponse.records
            [{ sender_id := JSVal.num 7, receiver_id := JSVal.num 1, message := "hello",
               timestamp := none, tempId := none }])).messages := by
  decide

/-! ## The session invariant -/

theorem tempIds_eq_nil_of_forall (v : List Node) (h : ∀ n ∈ v, Node.tempId? n = none) :
    tempIds v = [] := by
  induction v with
  | nil => rfl
  | cons n v ih =>
    have hn := h n (List.mem_cons_self _ _)
    have hv := ih (fun m hm => h m (List.mem_cons_of_mem _ hm))
    simp only [tempIds, List.filterMap_cons, hn] at hv ⊢
    exact hv

theorem mem_tempIds (x : String) (v : List Node) :
    x ∈ tempIds v ↔ ∃ n ∈ v, Node.tempId? n = some x := by
  simp [tempIds, List.mem_filterMap]

theorem removeCarrier_of_not_mem (x : String) (v : List Node) (h : x ∉ tempIds v) :
    removeCarrier x v = v := by
  induction v with
  | nil => rfl
  | cons n v ih =>
    have hn : n.tempId? ≠ some x := by
      intro e
      exact h ((mem_tempIds x _).2 ⟨n, List.mem_cons_self _ _, e⟩)
    have hv : x ∉ tempIds v := by
      intro e
      obtain ⟨m, hm, hm2⟩ := (mem_tempIds x v).1 e
      exact h ((mem_tempIds x _).2 ⟨m, List.mem_cons_of_mem _ hm, hm2⟩)
    rw [removeCarrier, if_neg hn, ih hv]

theorem removeCarrier_append_of_not_mem (x : String) (v w : List Node) (h : x ∉ tempIds v) :
    removeCarrier x (v ++ w) = v ++ removeCarrier x w := by
  induction v with
  | nil => rfl
  | cons n v ih =>
    have hn : n.tempId? ≠ some x := by
      intro e
      exact h ((mem_tempIds x _).2 ⟨n, List.mem_cons_self _ _, e⟩)
    have hv : x ∉ tempIds v := by
      intro e
      obtain ⟨m, hm, hm2⟩ := (mem_tempIds x v).1 e
      exact h ((mem_tempIds x _).2 ⟨m, List.mem_cons_of_mem _ hm, hm2⟩)
    rw [List.cons_append, removeCarrier, if_neg hn, ih hv, List.cons_append]

theorem filter_tempId_of_not_mem (x : String) (v : List Node) (h : x ∉ tempIds v) :
    v.filter (fun n => decide (n.tempId? ≠ some x)) = v := by
  rw [List.filter_eq_self]
  intro n hn
  simp only [decide_eq_true_eq]
  intro e
  exact h ((mem_tempIds x v).2 ⟨n, hn, e⟩)

theorem removeCarrier_eq_filter (x : String) (v : List Node) (h : (tempIds v).Nodup) :
    removeCarrier x v = v.filter (fun n => decide (n.tempId? ≠ some x)) := by
  induction v with
  | nil => rfl
  | cons n v ih =>
    rw [removeCarrier]
    by_cases hn : n.tempId? = some x
    · rw [if_pos hn]
      have hx : x ∉ tempIds v := by
        simp only [tempIds, List.filterMap_cons, hn, List.nodup_cons] at h
        exact h.1
      rw [List.filter_cons, if_neg (by simp [hn]), filter_tempId_of_not_mem x v hx]
    · rw [if_neg hn]
      have hv : (tempIds v).Nodup := by
        cases hy : n.tempId? with
        | none => simpa only [tempIds, List.filterMap_cons, hy] using h
        | some y =>
          simp only [tempIds, List.filterMap_cons, hy, List.nodup_cons] at h
          exact h.2
      rw [List.filter_cons, if_pos (by simp [hn]), ih hv]

theorem setDelete_of_not_mem (q : List String) (x : String) (h : x ∉ q) : setDelete q x = q := by
  unfold setDelete
  rw [List.filter_eq_self]
  intro y hy
  simp only [bne_iff_ne, ne_eq]
  intro e
  exact h (e ▸ hy)

theorem carrying_length (x : String) (v : List Node) :
    (carrying x v).length = (tempIds v).count x := by
  induction v with
  | nil => rfl
  | cons n v ih =>
    cases hn : n.tempId? with
    | none =>
      simp only [carrying, tempIds, List.filter_cons, List.filterMap_cons, hn] at ih ⊢
      simpa using ih
    | some y =>
      by_cases hy : y = x
      · subst hy
        simp only [carrying, tempIds, List.filter_cons, List.filterMap_cons, hn] at ih ⊢
        simp [ih]
      · simp only [carrying, tempIds, List.filter_cons, List.filterMap_cons, hn] at ih ⊢
        rw [List.count_cons_of_ne (Ne.symm hy)]
        simpa [hy] using ih

theorem messageId_ne_empty (env : Env) : messageId env ≠ "" := by
  intro h
  have := congrArg String.length h
  simp only [messageId, String.length_append] at this
  have h1 : ("_" : String).length = 1 := by decide
  have h0 : ("" : String).length = 0 := by decide
  omega

theorem tempIds_displayAll (env : Env) (data : List MessageData) (s : State) :
    tempIds (displayAll env s data).messages = tempIds s.messages := by
  induction data generalizing s with
  | nil => rfl
  | cons m ms ih =>
    rw [displayAll, ih]
    simp only [displayMessage]
    rw [tempIds_append, tempIds_removeEmptyState, tempIds_messageDiv_false, List.append_nil]

theorem tempIds_loadMessagesDone (env : Env) (s : State) (resp : HistoryResponse) :
    tempIds (loadMessagesDone env s resp).messages = [] := by
  cases resp with
  | failure => rfl
  | errorPayload e =>
    simp only [loadMessagesDone]
    split_ifs <;> rfl
  | records data =>
    cases data with
    | nil => rfl
    | cons m ms =>
      simp only [loadMessagesDone]
      rw [tempIds_displayAll]
      rfl

theorem userId_new (userIdAttr : Option String) (page : List Node) :
    (new userIdAttr page).userId ≠ JSVal.nan := by
  simp only [new]
  split_ifs with h
  · intro e
    rw [e] at h
    exact Bool.noConfusion h
  · intro e
    exact JSVal.noConfusion e

theorem Inv_new (userIdAttr : Option String) (page : List Node)
    (h : ∀ n ∈ page, Node.tempId? n = none) : Inv (new userIdAttr page) [] := by
  refine ⟨?_, ?_, ?_, ?_, userId_new userIdAttr page⟩
  · show (tempIds page).Nodup
    rw [tempIds_eq_nil_of_forall page h]
    exact List.nodup_nil
  · intro x hx
    have hx : x ∈ tempIds page := hx
    rw [tempIds_eq_nil_of_forall page h] at hx
    exact absurd hx (List.not_mem_nil _)
  · intro x hx
    exact absurd hx (List.not_mem_nil _)
  · intro x hx
    exact absurd hx (List.not_mem_nil _)

theorem Inv_selectFriend (s : State) (issued : List String) (friendEl : FriendEl)
    (h : Inv s issued) : Inv (selectFriend s friendEl) issued := by
  obtain ⟨h1, h2, h3, h4, h5⟩ := h
  unfold Inv
  rw [selectFriend_messages, selectFriend_messageQueue, selectFriend_userId]
  by_cases hh : headerThrows friendEl.username = true
  · rw [if_pos hh]
    exact ⟨h1, h2, h3, h4, h5⟩
  · rw [if_neg hh]
    refine ⟨List.nodup_nil, ?_, h3, h4, h5⟩
    intro x hx
    exact absurd hx (List.not_mem_nil _)

theorem Inv_loadMessagesDone (env : Env) (s : State) (issued : List String)
    (resp : HistoryResponse) (h : Inv s issued) : Inv (loadMessagesDone env s resp) issued := by
  obtain ⟨h1, h2, h3, h4, h5⟩ := h
  obtain ⟨a1, a2, a3, a4, a5, a6⟩ := loadMessagesDone_fields env s resp
  unfold Inv
  rw [tempIds_loadMessagesDone, a3, a4]
  refine ⟨List.nodup_nil, ?_, h3, h4, h5⟩
  intro x hx
  exact absurd hx (List.not_mem_nil _)

theorem sendMessage_messages (env : Env) (s : State) (h : accepts s = true) :
    (sendMessage env s).messages =
      removeEmptyState s.messages ++ [messageDiv env (pendingData env s) MsgType.sent true] := by
  rw [sendMessage_of_accepts env s h]
  rfl

theorem sendMessage_messageQueue (env : Env) (s : State) (h : accepts s = true) :
    (sendMessage env s).messageQueue = setAdd s.messageQueue (messageId env) := by
  rw [sendMessage_of_accepts env s h]
  rfl

theorem sendMessage_userId (env : Env) (s : State) : (sendMessage env s).userId = s.userId := by
  unfold sendMessage
  split_ifs <;> rfl

theorem sendMessage_currentReceiverId (env : Env) (s : State) :
    (sendMessage env s).currentReceiverId = s.currentReceiverId := by
  unfold sendMessage
  split_ifs <;> rfl

theorem tempIds_sendMessage (env : Env) (s : State) (h : accepts s = true) :
    tempIds (sendMessage env s).messages = tempIds s.messages ++ [messageId env] := by
  rw [sendMessage_messages env s h, tempIds_append, tempIds_removeEmptyState,
    tempIds_messageDiv_true]
  rfl

theorem Inv_sendMessage (env : Env) (s : State) (issued : List String) (h : Inv s issued)
    (hf : ∀ x ∈ generated s (Action.sendMessage env), x ∉ issued) :
    Inv (sendMessage env s) (generated s (Action.sendMessage env) ++ issued) := by
  obtain ⟨h1, h2, h3, h4, h5⟩ := h
  by_cases ha : accepts s = true
  · have hg : generated s (Action.sendMessage env) = [messageId env] := by
      simp [generated, ha]
    rw [hg] at hf ⊢
    have hfresh : messageId env ∉ issued := hf _ (List.mem_singleton_self _)
    unfold Inv
    rw [tempIds_sendMessage env s ha, sendMessage_messageQueue env s ha, sendMessage_userId]
    refine ⟨?_, ?_, ?_, ?_, h5⟩
    · rw [List.nodup_append]
      refine ⟨h1, List.nodup_singleton _, ?_⟩
      intro a ha1 ha2
      rw [List.mem_singleton] at ha2
      subst ha2
      exact hfresh (h3 _ (h2 _ ha1))
    · intro x hx
      rw [List.mem_append, List.mem_singleton] at hx
      rw [mem_setAdd]
      rcases hx with hx | hx
      · exact Or.inr (h2 x hx)
      · exact Or.inl hx
    · intro x hx
      rw [mem_setAdd] at hx
      rcases hx with hx | hx
      · rw [hx]; exact List.mem_cons_self _ _
      · exact List.mem_cons_of_mem _ (h3 x hx)
    · intro x hx
      rcases List.mem_cons.1 hx with hx | hx
      · rw [hx]; exact ⟨messageId_ne_empty env, messageId_plain env⟩
      · exact h4 x hx
  · have ha2 : accepts s = false := by simpa using ha
    have hg : generated s (Action.sendMessage env) = [] := by
      simp [generated, ha2]
    rw [hg, sendMessage_of_not_accepts env s ha2]
    exact ⟨h1, h2, h3, h4, h5⟩

theorem Inv_handleReceivedMessage (env : Env) (s : State) (issued : List String)
    (msg : MessageData) (h : Inv s issued) : Inv (handleReceivedMessage env s msg) issued := by
  obtain ⟨h1, h2, h3, h4, h5⟩ := h
  by_cases hp : passesRouting s msg = true
  · by_cases hc : msg.sender_id.strictEq s.userId = true ∧ strTruthy msg.tempId = true
    · have hr : reachesSelector s msg = true := by simp [reachesSelector, hc.1, hc.2]
      cases hq : querySelectorTemp env (msg.tempId.getD "") s.messages with
      | none =>
        rw [handleReceivedMessage_query_none env s msg hp hr hq]
        exact ⟨h1, h2, h3, h4, h5⟩
      | some view =>
        rw [handleReceivedMessage_query_some env s msg view hp hr hq]
        have hsub := querySelectorTemp_sublist env _ _ _ hq
        unfold Inv
        simp only [displayMessage]
        rw [tempIds_append, tempIds_removeEmptyState, tempIds_messageDiv_false, List.append_nil]
        refine ⟨h1.sublist hsub, ?_, ?_, h4, h5⟩
        · intro x hx
          rw [mem_setDelete]
          refine ⟨h2 x (hsub.subset hx), ?_⟩
          intro e
          have hpl : cssPlain (msg.tempId.getD "") = true := by
            rw [← e]; exact (h4 x (h3 x (h2 x (hsub.subset hx)))).2
          rw [querySelectorTemp_of_plain env _ _ hpl] at hq
          simp only [Option.some.injEq] at hq
          rw [← hq, tempIds_removeCarrier, ← e, h1.mem_erase_iff] at hx
          exact hx.1 rfl
        · intro x hx
          rw [mem_setDelete] at hx
          exact h3 x hx.1
    · rw [handleReceivedMessage_plain env s msg hp hc]
      unfold Inv
      simp only [displayMessage]
      rw [tempIds_append, tempIds_removeEmptyState, tempIds_messageDiv_false, List.append_nil]
      exact ⟨h1, h2, h3, h4, h5⟩
  · have hp2 : passesRouting s msg = false := by simpa using hp
    rw [handleReceivedMessage_of_not_passesRouting env s msg hp2]
    exact ⟨h1, h2, h3, h4, h5⟩

theorem Inv_step (s : State) (issued : List String) (a : Action) (h : Inv s issued)
    (hf : ∀ x ∈ generated s a, x ∉ issued) : Inv (step s a) (generated s a ++ issued) := by
  cases a with
  | selectFriend friendEl => exact Inv_selectFriend s issued friendEl h
  | loadMessagesDone env resp => exact Inv_loadMessagesDone env s issued resp h
  | input text => exact h
  | sendMessage env => exact Inv_sendMessage env s issued h hf
  | handleReceivedMessage env data => exact Inv_handleReceivedMessage env s issued data h

theorem Inv_of_Run (s t : State) (issued issuedT : List String) (h : Inv s issued)
    (hr : Run s issued t issuedT) : Inv t issuedT := by
  induction hr with
  | refl => exact h
  | tail a _ hf ih => exact Inv_step _ _ a ih hf

theorem Inv_of_Reachable (s : State) (issued : List String) (h : Reachable s issued) :
    Inv s issued := by
  obtain ⟨userIdAttr, page, hpage, hr⟩ := h
  exact Inv_of_Run _ _ _ _ (Inv_new userIdAttr page hpage) hr

theorem mem_queue_step (s : State) (a : Action) (y : String)
    (h : y ∈ (step s a).messageQueue) : y ∈ s.messageQueue ∨ y ∈ generated s a := by
  cases a with
  | selectFriend friendEl =>
    left
    have h : y ∈ (selectFriend s friendEl).messageQueue := h
    rw [selectFriend_messageQueue] at h
    exact h
  | loadMessagesDone env resp =>
    left
    have h : y ∈ (loadMessagesDone env s resp).messageQueue := h
    rw [(loadMessagesDone_fields env s resp).2.2.2.1] at h
    exact h
  | input text => exact Or.inl h
  | sendMessage env =>
    have h : y ∈ (sendMessage env s).messageQueue := h
    by_cases ha : accepts s = true
    · rw [sendMessage_messageQueue env s ha, mem_setAdd] at h
      rcases h with h | h
      · right; simp [generated, ha, h]
      · exact Or.inl h
    · have ha2 : accepts s = false := by simpa using ha
      rw [sendMessage_of_not_accepts env s ha2] at h
      exact Or.inl h
  | handleReceivedMessage env msg =>
    left
    have h : y ∈ (handleReceivedMessage env s msg).messageQueue := h
    by_cases hp : passesRouting s msg = true
    · by_cases hc : msg.sender_id.strictEq s.userId = true ∧ strTruthy msg.tempId = true
      · have hr : reachesSelector s msg = true := by simp [reachesSelector, hc.1, hc.2]
        cases hq : querySelectorTemp env (msg.tempId.getD "") s.messages with
        | none =>
          rw [handleReceivedMessage_query_none env s msg hp hr hq] at h
          exact h
        | some view =>
          rw [handleReceivedMessage_query_some env s msg view hp hr hq] at h
          exact ((mem_setDelete _ _ _).1 h).1
      · rw [handleReceivedMessage_plain env s msg hp hc] at h
        exact h
    · have hp2 : passesRouting s msg = false := by simpa using hp
      rw [handleReceivedMessage_of_not_passesRouting env s msg hp2] at h
      exact h

theorem Run_issued_subset (s t : State) (issued issuedT : List String)
    (hr : Run s issued t issuedT) : ∀ x ∈ issued, x ∈ issuedT := by
  induction hr with
  | refl => intro x hx; exact hx
  | tail a _ _ ih =>
    intro x hx
    exact List.mem_append_right _ (ih x hx)

theorem Run_queue (s t : State) (issued issuedT : List String)
    (hr : Run s issued t issuedT) :
    ∀ y ∈ t.messageQueue, y ∈ s.messageQueue ∨ y ∉ issued := by
  induction hr with
  | refl => intro y hy; exact Or.inl hy
  | tail a hrun hf ih =>
    intro y hy
    rcases mem_queue_step _ a y hy with h | h
    · exact ih y h
    · right
      intro hi
      exact hf y h (Run_issued_subset _ _ _ _ hrun y hi)

/-! ## The sample session is reachable -/

theorem reachable_sampleTyped : Reachable sampleTyped [] := by
  refine ⟨some "1", [], ?_, ?_⟩
  · intro n hn
    exact absurd hn (List.not_mem_nil _)
  · exact Run.tail (Action.input " hi ")
      (Run.tail (Action.selectFriend alex) Run.refl
        (fun x hx => absurd hx (List.not_mem_nil _)))
      (fun x hx => absurd hx (List.not_mem_nil _))

theorem reachable_samplePending : Reachable samplePending ["5_a"] := by
  obtain ⟨u, page, hpage, hr⟩ := reachable_sampleTyped
  refine ⟨u, page, hpage, ?_⟩
  have hg : generated sampleTyped (Action.sendMessage sampleEnv) = ["5_a"] := by decide
  have h := Run.tail (Action.sendMessage sampleEnv) hr
    (fun x _ hx => absurd hx (List.not_mem_nil _))
  rw [hg] at h
  exact h

theorem reachable_sampleConfirmed : Reachable sampleConfirmed ["5_a"] := by
  obtain ⟨u, page, hpage, hr⟩ := reachable_samplePending
  refine ⟨u, page, hpage, ?_⟩
  exact Run.tail (Action.handleReceivedMessage laterEnv sampleEcho) hr
    (fun x hx => absurd hx (List.not_mem_nil _))

theorem reachable_sampleSwitched : Reachable sampleSwitched ["5_a"] := by
  obtain ⟨u, page, hpage, hr⟩ := reachable_samplePending
  refine ⟨u, page, hpage, ?_⟩
  exact Run.tail (Action.selectFriend bob) hr
    (fun x hx => absurd hx (List.not_mem_nil _))
/-! ## Provisional ids (C3) -/

/-- C3: in every state reachable from the initial state by `selectFriend`,
history-load completion, input, `sendMessage` and `handleReceivedMessage`
steps in which every `sendMessage` generates an id never generated before, at
most one node of the view carries any given provisional id, and a generated id
that is no longer in the pending set is not in the pending set of any later
state either. -/
theorem provisional_id_at_most_once (s : State) (issued : List String)
    (h : Reachable s issued) :
    (∀ x, (carrying x s.messages).length ≤ 1) ∧
    (∀ x ∈ issued, x ∉ s.messageQueue →
      ∀ (t : State) (issuedT : List String), Run s issued t issuedT → x ∉ t.messageQueue) := by
  have hinv := Inv_of_Reachable s issued h
  constructor
  · intro x
    rw [carrying_length]
    exact List.nodup_iff_count_le_one.1 hinv.1 x
  · intro x hx hq t issuedT hr hxt
    rcases Run_queue s t issued issuedT hr x hxt with h1 | h1
    · exact hq h1
    · exact h1 hx

theorem provisional_id_at_most_once_witness :
    Reachable sampleConfirmed ["5_a"] ∧
    "5_a" ∉ sampleConfirmed.messageQueue ∧
    (∀ x, (carrying x sampleConfirmed.messages).length ≤ 1) ∧
    (∀ x ∈ ["5_a"], x ∉ sampleConfirmed.messageQueue →
      ∀ (t : State) (issuedT : List String),
        Run sampleConfirmed ["5_a"] t issuedT → x ∉ t.messageQueue) :=
  ⟨reachable_sampleConfirmed, by decide,
    provisional_id_at_most_once sampleConfirmed ["5_a"] reachable_sampleConfirmed⟩

theorem reachable_sampleRetyped : Reachable sampleRetyped ["5_a"] := by
  obtain ⟨u, page, hpage, hr⟩ := reachable_samplePending
  refine ⟨u, page, hpage, ?_⟩
  exact Run.tail (Action.input "two") hr
    (fun x hx => absurd hx (List.not_mem_nil _))

/-! ## Classification (C5) -/

theorem strictEq_self (v : JSVal) (h : v ≠ JSVal.nan) : v.strictEq v = true := by
  cases v with
  | null => rfl
  | nan => exact absurd rfl h
  | num n => simp [JSVal.strictEq]

theorem handleReceivedMessage_eq_specClassify_of_safe (env : Env) (s : State)
    (issued : List String) (msg : MessageData) (h : Reachable s issued)
    (hp : passesRouting s msg = true) (hsafe : selectorSafe s msg = true) :
    handleReceivedMessage env s msg = specClassify env s msg := by
  obtain ⟨h1, h2, h3, h4, h5⟩ := Inv_of_Reachable s issued h
  have hplain : msg.sender_id.strictEq s.userId = true → strTruthy msg.tempId = true →
      cssPlain (msg.tempId.getD "") = true := by
    intro a b
    simpa [selectorSafe, reachesSelector, a, b] using hsafe
  unfold specClassify
  cases ht : msg.tempId with
  | none =>
    simp only []
    rw [handleReceivedMessage_plain env s msg hp (by simp [ht, strTruthy])]
  | some x =>
    simp only []
    by_cases hs : msg.sender_id.strictEq s.userId = true
    · by_cases hx : x ∈ s.messageQueue
      · have hne : x ≠ "" := (h4 x (h3 x hx)).1
        have htr : strTruthy msg.tempId = true := by simp [ht, strTruthy, hne]
        rw [if_pos ⟨hs, hx⟩,
          handleReceivedMessage_echo env s msg hp hs htr (hplain hs htr)]
        simp only [ht, Option.getD_some, displayMessage, setDelete]
        rw [removeCarrier_eq_filter x s.messages h1]
      · rw [if_neg (fun hc => hx hc.2), if_pos hs]
        by_cases hne : x = ""
        · rw [handleReceivedMessage_plain env s msg hp (by simp [ht, strTruthy, hne]), if_pos hs]
        · have hxv : x ∉ tempIds s.messages := fun hc => hx (h2 x hc)
          have htr : strTruthy msg.tempId = true := by simp [ht, strTruthy, hne]
          rw [handleReceivedMessage_echo env s msg hp hs htr (hplain hs htr)]
          simp only [ht, Option.getD_some, displayMessage]
          rw [removeCarrier_of_not_mem x s.messages hxv, setDelete_of_not_mem _ x hx]
    · rw [if_neg (fun hc => hs hc.1),
        handleReceivedMessage_plain env s msg hp (fun hc => hs hc.1)]

/-- C5 fails on the code: the provisional id of an event is spliced into a
selector. With the id `5\_a` (a backslash before the underscore) the selector
matches the pending node of `5_a`, which is removed although no pending entry
`5\_a` exists and `5_a` stays pending, where the ordered algorithm only appends
a new sent entry; with the id `a"b` the selector is invalid, the handler
throws and nothing is rendered, where the algorithm appends a new sent
entry. -/
theorem handleReceivedMessage_selector_splice :
    Reachable samplePending ["5_a"] ∧
    (passesRouting samplePending sampleEscaped = true ∧
      (carrying "5_a" samplePending.messages).length = 1 ∧
      carrying "5_a" (handleReceivedMessage laterEnv samplePending sampleEscaped).messages = [] ∧
      (handleReceivedMessage laterEnv samplePending sampleEscaped).messageQueue = ["5_a"] ∧
      (carrying "5_a" (specClassify laterEnv samplePending sampleEscaped).messages).length = 1 ∧
      (entries (handleReceivedMessage laterEnv samplePending sampleEscaped).messages).length = 1 ∧
      (entries (specClassify laterEnv samplePending sampleEscaped).messages).length = 2) ∧
    (passesRouting samplePending sampleQuoted = true ∧
      confirmedEntries (handleReceivedMessage laterEnv samplePending sampleQuoted).messages = [] ∧
      (entries (handleReceivedMessage laterEnv samplePending sampleQuoted).messages).length = 1 ∧
      (confirmedEntries (specClassify laterEnv samplePending sampleQuoted).messages).length = 1 ∧
      (entries (specClassify laterEnv samplePending sampleQuoted).messages).length = 2) := by
  refine ⟨reachable_samplePending, ⟨by decide, by decide, by decide, by decide, by decide,
    by decide, by decide⟩, ⟨by decide, by decide, by decide, by decide, by decide⟩⟩

/-! ## Reconciliation (C2, C4) -/

theorem passesRouting_echoOf (env : Env) (s : State) (timestamp : Option String)
    (ha : accepts s = true) :
    passesRouting (sendMessage env s) (echoOf env s timestamp) = true := by
  obtain ⟨_, n, hn, hc⟩ := (accepts_iff s).1 ha
  simp only [passesRouting, targetMatches, sendMessage_currentReceiverId, echoOf, sendEvent, hc,
    JSVal.truthy, JSVal.strictEq]
  simp [hn]

theorem sendMessage_echo_of_fresh (env env1 : Env) (s : State) (issued : List String)
    (timestamp : Option String) (h : Reachable s issued) (ha : accepts s = true)
    (hf : messageId env ∉ issued) :
    carrying (messageId env) (sendMessage env s).messages
      = [messageDiv env (pendingData env s) MsgType.sent true] ∧
    entries (handleReceivedMessage env1 (sendMessage env s) (echoOf env s timestamp)).messages
      = entries s.messages ++ [messageDiv env1 (echoOf env s timestamp) MsgType.sent false] ∧
    Node.isConfirmed (messageDiv env1 (echoOf env s timestamp) MsgType.sent false) = true ∧
    carrying (messageId env)
      (handleReceivedMessage env1 (sendMessage env s) (echoOf env s timestamp)).messages = [] ∧
    messageId env ∉
      (handleReceivedMessage env1 (sendMessage env s) (echoOf env s timestamp)).messageQueue ∧
    (entries
        (handleReceivedMessage env1 (sendMessage env s) (echoOf env s timestamp)).messages).length
      = (entries s.messages).length + 1 := by
  obtain ⟨h1, h2, h3, h4, h5⟩ := Inv_of_Reachable s issued h
  have hxv : messageId env ∉ tempIds s.messages := fun hc => hf (h3 _ (h2 _ hc))
  have hxw : messageId env ∉ tempIds (removeEmptyState s.messages) := by
    rw [tempIds_removeEmptyState]; exact hxv
  have hp := passesRouting_echoOf env s timestamp ha
  have hs : (echoOf env s timestamp).sender_id.strictEq (sendMessage env s).userId = true := by
    rw [sendMessage_userId]
    exact strictEq_self s.userId h5
  have hx : strTruthy (echoOf env s timestamp).tempId = true := by
    simp [echoOf, sendEvent, strTruthy, messageId_ne_empty env]
  have hpl : cssPlain ((echoOf env s timestamp).tempId.getD "") = true := messageId_plain env
  have hpend : Node.tempId? (messageDiv env (pendingData env s) MsgType.sent true)
      = some (messageId env) := by
    simp [messageDiv, pendingData, Node.tempId?]
  have hview : (handleReceivedMessage env1 (sendMessage env s) (echoOf env s timestamp)).messages
      = removeEmptyState (removeEmptyState s.messages) ++
          [messageDiv env1 (echoOf env s timestamp) MsgType.sent false] := by
    rw [handleReceivedMessage_echo env1 _ _ hp hs hx hpl]
    simp only [displayMessage]
    rw [sendMessage_messages env s ha]
    have ht : (echoOf env s timestamp).tempId.getD "" = messageId env := rfl
    rw [ht, removeCarrier_append_of_not_mem _ _ _ hxw]
    simp only [removeCarrier, hpend, if_true, List.append_nil]
  have hent : entries
      (handleReceivedMessage env1 (sendMessage env s) (echoOf env s timestamp)).messages
      = entries s.messages ++ [messageDiv env1 (echoOf env s timestamp) MsgType.sent false] := by
    rw [hview, entries_append, entries_removeEmptyState, entries_removeEmptyState,
      entries_messageDiv]
  refine ⟨?_, hent, ?_, ?_, ?_, ?_⟩
  · rw [sendMessage_messages env s ha]
    simp only [carrying, List.filter_append]
    have hnone : (removeEmptyState s.messages).filter
        (fun n => decide (n.tempId? = some (messageId env))) = [] := by
      rw [List.filter_eq_nil_iff]
      intro n hn
      simp only [decide_eq_true_eq]
      intro e
      exact hxw ((mem_tempIds _ _).2 ⟨n, hn, e⟩)
    rw [hnone]
    simp [hpend]
  · simp [messageDiv, Node.isConfirmed]
  · rw [hview]
    simp only [carrying, List.filter_append]
    have hnone : (removeEmptyState (removeEmptyState s.messages)).filter
        (fun n => decide (n.tempId? = some (messageId env))) = [] := by
      rw [List.filter_eq_nil_iff]
      intro n hn
      simp only [decide_eq_true_eq]
      intro e
      have : messageId env ∈ tempIds (removeEmptyState (removeEmptyState s.messages)) :=
        (mem_tempIds _ _).2 ⟨n, hn, e⟩
      rw [tempIds_removeEmptyState] at this
      exact hxw this
    rw [hnone]
    simp [messageDiv, Node.tempId?]
  · rw [handleReceivedMessage_echo env1 _ _ hp hs hx hpl]
    intro hc
    have hc : messageId env ∈ setDelete (sendMessage env s).messageQueue (messageId env) := hc
    exact ((mem_setDelete _ _ _).1 hc).2 rfl
  · rw [hent, List.length_append, List.length_singleton]

/-- C4 (as amended): in every reachable state in which the provisional id `x`
is pending, an inbound event of the local user that carries `x` and passes
routing (the current receiver id is a non-zero number equal to the sender or
the receiver of the event) leaves `x` out of the pending set. -/
theorem handleReceivedMessage_removes_pending (env : Env) (s : State) (issued : List String)
    (msg : MessageData) (x : String) (h : Reachable s issued) (hx : x ∈ s.messageQueue)
    (hs : msg.sender_id.strictEq s.userId = true) (ht : msg.tempId = some x)
    (hp : passesRouting s msg = true) :
    x ∉ (handleReceivedMessage env s msg).messageQueue := by
  obtain ⟨_, _, h3, h4, _⟩ := Inv_of_Reachable s issued h
  have hne : x ≠ "" := (h4 x (h3 x hx)).1
  have hpl : cssPlain (msg.tempId.getD "") = true := by
    rw [ht]; exact (h4 x (h3 x hx)).2
  rw [handleReceivedMessage_echo env s msg hp hs (by simp [ht, strTruthy, hne]) hpl]
  intro hc
  have hc : x ∈ setDelete s.messageQueue (msg.tempId.getD "") := hc
  rw [ht] at hc
  exact ((mem_setDelete _ _ _).1 hc).2 rfl

theorem handleReceivedMessage_removes_pending_witness :
    Reachable samplePending ["5_a"] ∧ "5_a" ∈ samplePending.messageQueue ∧
    sampleEcho.sender_id.strictEq samplePending.userId = true ∧
    sampleEcho.tempId = some "5_a" ∧ passesRouting samplePending sampleEcho = true ∧
    "5_a" ∉ (handleReceivedMessage laterEnv samplePending sampleEcho).messageQueue :=
  ⟨reachable_samplePending, by decide, by decide, rfl, by decide,
    handleReceivedMessage_removes_pending laterEnv samplePending ["5_a"] sampleEcho "5_a"
      reachable_samplePending (by decide) (by decide) rfl (by decide)⟩

/-- C4 (as stated) fails: the user sends to user 7 and opens the conversation
with user 9 before the echo arrives; the echo is from the local user and
carries the pending id, yet it is dropped by routing and the id stays in the
pending set. -/
theorem handleReceivedMessage_keeps_pending_after_switch :
    "5_a" ∈ sampleSwitched.messageQueue ∧
    sampleEcho.sender_id.strictEq sampleSwitched.userId = true ∧
    sampleEcho.tempId = some "5_a" ∧
    "5_a" ∈ (handleReceivedMessage laterEnv sampleSwitched sampleEcho).messageQueue := by
  refine ⟨by decide, by decide, rfl, by decide⟩

/-- C2 fails on the code: a second message sent at the same clock reading and
with the same random value gets the provisional id `5_a` of the first, which
is still pending. When its echo is processed the selector finds the node of
the first message, so a node carrying the id remains and the view holds two
entries for the second message, one of them pending. Nor does the handler
consult the pending set: the echo of the first message, delivered a second
time, is appended as a second confirmed entry. -/
theorem sendMessage_echo_duplicates :
    (Reachable sampleRetyped ["5_a"] ∧ accepts sampleRetyped = true ∧
      messageId sampleEnv = "5_a" ∧
      echoOf sampleEnv sampleRetyped (some "10:00") = sampleEchoTwo ∧
      (carrying "5_a"
        (handleReceivedMessage laterEnv (sendMessage sampleEnv sampleRetyped)
          sampleEchoTwo).messages).length = 1 ∧
      entries
        (handleReceivedMessage laterEnv (sendMessage sampleEnv sampleRetyped)
          sampleEchoTwo).messages
        = [messageDiv sampleEnv (pendingData sampleEnv sampleRetyped) MsgType.sent true,
           messageDiv laterEnv sampleEchoTwo MsgType.sent false]) ∧
    (Reachable sampleConfirmed ["5_a"] ∧
      confirmedEntries sampleConfirmed.messages
        = [messageDiv laterEnv sampleEcho MsgType.sent false] ∧
      confirmedEntries (handleReceivedMessage laterEnv sampleConfirmed sampleEcho).messages
        = [messageDiv laterEnv sampleEcho MsgType.sent false,
           messageDiv laterEnv sampleEcho MsgType.sent false]) := by
  refine ⟨⟨reachable_sampleRetyped, by decide, by decide, rfl, by decide, rfl⟩,
    ⟨reachable_sampleConfirmed, rfl, rfl⟩⟩

end ChatApp
